import Mathlib

/-!
# rsnchat-go: the client constructor, the two dispatchers and the endpoint methods

A shallow embedding of `lib.go`.  The remote service and the Go HTTP client are
an explicit environment (`Env`); every function returns, next to its two Go
results, the list of requests it handed to the HTTP client.  Response bodies are
text, and `json.NewDecoder(body).Decode(&v)` is embedded as a scanner for the
first JSON value of the body followed by the assignment of its members to the
fields of the target struct.
-/

set_option linter.dupNamespace false

namespace RsnChatGo

/-! ## Errors -/

/-- The one operand our two `fmt.Errorf` calls format: a `%s` string or a `%d` int. -/
inductive FmtArg where
  | str (s : String)
  | int (i : Int)
  deriving DecidableEq, Repr

/-- Go `error` values that `lib.go` creates or passes on.  `errorsNew` and
`fmtErrorf` are the two constructors the source calls itself; the others are
what `net/http`, `io` and `encoding/json` hand back. -/
inductive GoError where
  /-- The value of `errors.New(msg)` -/
  | errorsNew (msg : String)
  /-- The value of `fmt.Errorf(format, arg)` -/
  | fmtErrorf (format : String) (arg : FmtArg)
  /-- An error of `net/http`: URL parsing, connection, reading the body -/
  | transport (msg : String)
  /-- The type `*json.SyntaxError`: the scanner met a byte no JSON value allows there -/
  | jsonInvalid
  /-- The type `*json.UnmarshalTypeError`: a JSON value of kind `value` met a Go target it cannot fill -/
  | jsonUnmarshalType (value : String)
  /-- The value `io.EOF`: the body holds no JSON value at all -/
  | ioEOF
  /-- The value `io.ErrUnexpectedEOF`: the body ends inside its first JSON value -/
  | ioUnexpectedEOF
  deriving DecidableEq, Repr

/-- Text of an operand under its verb: `%s` copies the string, `%d` writes the
int in decimal. -/
def FmtArg.text : FmtArg → List Char
  | .str s => s.data
  | .int i => (toString i).data

/-- One-operand `fmt.Sprintf`: the first `%s`, `%d` or `%v` of the format is
replaced by the operand. -/
def sprintf1 : List Char → FmtArg → List Char
  | [], _ => []
  | [c], _ => [c]
  | c :: d :: rest, a =>
    if c = '%' ∧ (d = 's' ∨ d = 'd' ∨ d = 'v') then a.text ++ rest
    else c :: sprintf1 (d :: rest) a

/-- The `Error()` method: the message of an error. -/
def GoError.Error : GoError → String
  | .errorsNew msg => msg
  | .fmtErrorf format arg => String.mk (sprintf1 format.data arg)
  | .transport msg => msg
  | .jsonInvalid => "invalid character"
  | .jsonUnmarshalType value => "json: cannot unmarshal " ++ value ++ " into Go value"
  | .ioEOF => "EOF"
  | .ioUnexpectedEOF => "unexpected EOF"

/-- The error taxonomy of the specification (section 7).  `lib.go` has no error
types; its errors differ by message only. -/
inductive ErrorClass where
  | ConfigurationError
  | AuthenticationError
  | PermissionError
  | NotFoundError
  | TransportError
  | DecodeError
  | RequestFailedError (status : Int)
  | unclassified
  deriving DecidableEq, Repr

/-- Reading of the taxonomy on the errors of `lib.go`: bad constructor arguments
are configuration errors, the two `unauthorized` messages and `invalid API Key`
are authentication errors, `forbidden` is a permission error, `not found` a
not-found error, `request failed with status: %d` a request failure carrying its
operand, errors of the HTTP client are transport errors and errors of the JSON
decoder are decode errors. -/
def GoError.errorClass : GoError → ErrorClass
  | .errorsNew msg =>
    if msg = "too many arguments" ∨ msg = "please provide API key" then .ConfigurationError
    else if msg = "unauthorized: API key is invalid or you do not have access to the resource"
        ∨ msg = "unauthorized: API key is invalid" then .AuthenticationError
    else if msg = "forbidden: access to the resource is denied" then .PermissionError
    else if msg = "not found: the requested endpoint is not available" then .NotFoundError
    else .unclassified
  | .fmtErrorf format (.str _) =>
    if format = "invalid API Key: %s" then .AuthenticationError else .unclassified
  | .fmtErrorf format (.int status) =>
    if format = "request failed with status: %d" then .RequestFailedError status
    else .unclassified
  | .transport _ => .TransportError
  | .jsonInvalid => .DecodeError
  | .jsonUnmarshalType _ => .DecodeError
  | .ioEOF => .DecodeError
  | .ioUnexpectedEOF => .DecodeError

/-! ## HTTP -/

/-- A Go `map[string]string` literal: keys with their values. -/
abbrev Payload := List (String × String)

/-- The value stored under a key, if any. -/
def Payload.get? (p : Payload) (key : String) : Option String :=
  (p.find? (fun kv => kv.1 = key)).map Prod.snd

/-- The method `Header.Set`: the value of `key` is replaced, or the pair is added. -/
def headerSet : List (String × String) → String → String → List (String × String)
  | [], key, value => [(key, value)]
  | (k, v) :: rest, key, value =>
    if k = key then (key, value) :: rest else (k, v) :: headerSet rest key value

/-- The method `Header.Get`: the value of a request header, if set. -/
def headerGet (h : List (String × String)) (key : String) : Option String :=
  (h.find? (fun kv => kv.1 = key)).map Prod.snd

/-- An outgoing request as the code builds it: method, URL, the headers set on
it, and the JSON object `json.Marshal` writes for the payload map. -/
structure Request where
  method : String
  url : String
  header : List (String × String)
  jsonBody : Payload
  deriving DecidableEq, Repr

/-- A response: the status code, the bytes of the body that arrive, and the
error, if any, that ends the body instead of a clean end of stream. -/
structure Response where
  statusCode : Int
  body : String
  readErr : Option GoError
  deriving DecidableEq, Repr

/-- The world outside the library: which URLs `http.NewRequest` refuses, and
what `Client.Do` returns for a request. -/
structure Env where
  newRequestErr : String → Option GoError
  roundTrip : Request → Except GoError Response

/-- The two results of a Go function `(*T, error)` (`none` is `nil`), and the
requests that were handed to the HTTP client on the way. -/
structure Outcome (α : Type) where
  result : Option α
  err : Option GoError
  sent : List Request
  deriving DecidableEq, Repr

/-- The request `http.Post` and `Client.Post` build: a POST to the URL whose
only header set is Content-Type. -/
def postRequest (url contentType : String) (body : Payload) : Request :=
  { method := "POST", url := url,
    header := headerSet [] "Content-Type" contentType, jsonBody := body }

/-- The functions `http.Post` and `Client.Post`: build the request, which fails
on a URL that `http.NewRequest` refuses, and send it. -/
def httpPost (env : Env) (url contentType : String) (body : Payload) :
    Except GoError Response × List Request :=
  match env.newRequestErr url with
  | some err => (.error err, [])
  | none => (env.roundTrip (postRequest url contentType body), [postRequest url contentType body])

/-! ## The client -/

/-- Substring test of `strings.Contains` on the characters of both strings. -/
def containsChars : List Char → List Char → Bool
  | [], sub => sub.isEmpty
  | c :: cs, sub => sub.isPrefixOf (c :: cs) || containsChars cs sub

/-- The function `strings.Contains(s, substr)`. -/
def stringsContains (s substr : String) : Bool :=
  containsChars s.data substr.data

/-- The struct `RsnChat`; its `Client` field is `http.DefaultClient`, which is
the environment here. -/
structure RsnChat where
  APIKey : String
  APIURL : String
  Headers : List (String × String)
  deriving DecidableEq, Repr

/-- The origin used when no base URL is passed. -/
def defaultAPIURL : String := "https://api.rsnai.org/api/v1/user"

/-- The constructor `NewRsnChat(apiKey, apiURL...)`, lines 109-150 of `lib.go`. -/
def NewRsnChat (env : Env) (apiKey : String) (apiURL : List String) : Outcome RsnChat :=
  let chosen : Option String :=
    match apiURL with
    | [] => some defaultAPIURL
    | [u] => some u
    | _ => none
  match chosen with
  | none => ⟨none, some (.errorsNew "too many arguments"), []⟩
  | some trueApiURL =>
    if apiKey = "" then ⟨none, some (.errorsNew "please provide API key"), []⟩
    else
      let validateURL := trueApiURL ++ "/validate"
      match httpPost env validateURL "application/json" [("key", apiKey)] with
      | (.error err, sent) => ⟨none, some err, sent⟩
      | (.ok resp, sent) =>
        -- body, err := io.ReadAll(resp.Body)
        if resp.readErr ≠ none ∨ ¬ stringsContains resp.body "API key validated" then
          ⟨none, resp.readErr, sent⟩
        else if resp.statusCode ≠ 200 then
          ⟨none, some (.fmtErrorf "invalid API Key: %s" (.str apiKey)), sent⟩
        else
          ⟨some { APIKey := apiKey, APIURL := trueApiURL,
                  Headers := [("Authorization", "Bearer " ++ apiKey)] }, none, sent⟩

/-! ## JSON decoding -/

/-- A JSON value as the decoder sees it.  A number needs no content here: no
field of the result structs can hold one. -/
inductive Json where
  | null
  | bool (b : Bool)
  | number
  | string (s : String)
  | array (elems : List Json)
  | object (members : List (String × Json))

/-- Why a scan stops without a value: a character that cannot stand there, the
end of the input inside the value, or the recursion budget. -/
inductive ScanErr where
  | invalid
  | truncated
  | fuel
  deriving DecidableEq, Repr

/-- A scan result: the item read and the input left after it. -/
abbrev Scan (α : Type) := Except ScanErr (α × List Char)

/-- The four JSON white-space characters. -/
def isSpace (c : Char) : Bool :=
  c = ' ' || c = '\t' || c = '\r' || c = '\n'

/-- Input after its leading white space. -/
def skipSpace : List Char → List Char
  | [] => []
  | c :: cs => if isSpace c then skipSpace cs else c :: cs

/-- Value of a hexadecimal digit. -/
def hexVal (c : Char) : Option Nat :=
  if '0' ≤ c ∧ c ≤ '9' then some (c.toNat - 48)
  else if 'a' ≤ c ∧ c ≤ 'f' then some (c.toNat - 87)
  else if 'A' ≤ c ∧ c ≤ 'F' then some (c.toNat - 55)
  else none

/-- Value of the four hexadecimal digits of a `\u` escape. -/
def hex4 (a b c d : Char) : Option Nat :=
  match hexVal a, hexVal b, hexVal c, hexVal d with
  | some x, some y, some z, some w => some (((x * 16 + y) * 16 + z) * 16 + w)
  | _, _, _, _ => none

/-- The character a one-letter escape stands for. -/
def escapeChar (e : Char) : Option Char :=
  if e = '"' then some '"'
  else if e = '\\' then some '\\'
  else if e = '/' then some '/'
  else if e = 'b' then some (Char.ofNat 8)
  else if e = 'f' then some (Char.ofNat 12)
  else if e = 'n' then some '\n'
  else if e = 'r' then some '\r'
  else if e = 't' then some '\t'
  else none

/-- Put a character in front of the string a scan returns. -/
def pushChar (c : Char) : Scan (List Char) → Scan (List Char)
  | .ok (s, rest) => .ok (c :: s, rest)
  | .error e => .error e

/-- What a pending high surrogate contributes when no low half follows it:
U+FFFD. -/
def flushPending : Option Nat → List Char → List Char
  | none, s => s
  | some _, s => Char.ofNat 0xFFFD :: s

/-- Put the characters owed for a pending high surrogate in front of the string
a scan returns. -/
def pushPending (pending : Option Nat) : Scan (List Char) → Scan (List Char)
  | .ok (s, rest) => .ok (flushPending pending s, rest)
  | .error e => .error e

/-- A string literal after its opening quote: the scanner's rules (no raw
control character, only the JSON escapes) and `unquote` in one pass.
`pending` is a high surrogate whose `\u` escape was the last thing read.  A
`\u` escape in the surrogate range gives its pair's character when a low half
follows a high half, and U+FFFD otherwise. -/
def scanStringFrom : Option Nat → List Char → Scan (List Char)
  | _, [] => .error .truncated
  | pending, c :: cs =>
    if c = '"' then .ok (flushPending pending [], cs)
    else if c = '\\' then
      match cs with
      | [] => .error .truncated
      | e :: cs1 =>
        if e = 'u' then
          match cs1 with
          | h1 :: h2 :: h3 :: h4 :: cs2 =>
            match hex4 h1 h2 h3 h4 with
            | none => .error .invalid
            | some n =>
              if 0xDC00 ≤ n ∧ n < 0xE000 then
                match pending with
                | some hi =>
                  pushChar (Char.ofNat ((hi - 0xD800) * 1024 + (n - 0xDC00) + 0x10000))
                    (scanStringFrom none cs2)
                | none => pushChar (Char.ofNat 0xFFFD) (scanStringFrom none cs2)
              else if 0xD800 ≤ n ∧ n < 0xDC00 then
                pushPending pending (scanStringFrom (some n) cs2)
              else pushPending pending (pushChar (Char.ofNat n) (scanStringFrom none cs2))
          | short => if short.all (fun h => (hexVal h).isSome) then .error .truncated
                     else .error .invalid
        else
          match escapeChar e with
          | some x => pushPending pending (pushChar x (scanStringFrom none cs1))
          | none => .error .invalid
    else if c.toNat < 0x20 then .error .invalid
    else pushPending pending (pushChar c (scanStringFrom none cs))

/-- A string literal after its opening quote. -/
def scanString (cs : List Char) : Scan (List Char) :=
  scanStringFrom none cs

/-- One digit or more. -/
def scanDigits1 : List Char → Except ScanErr (List Char)
  | [] => .error .truncated
  | c :: cs => if c.isDigit then .ok (cs.dropWhile Char.isDigit) else .error .invalid

/-- The exponent of a number after its `e`: an optional sign and digits. -/
def scanExp : List Char → Except ScanErr (List Char)
  | [] => .error .truncated
  | c :: cs => if c = '+' ∨ c = '-' then scanDigits1 cs else scanDigits1 (c :: cs)

/-- What may follow the integer part of a number: a fraction, an exponent. -/
def scanFracExp : List Char → Except ScanErr (List Char)
  | [] => .ok []
  | c :: cs =>
    if c = '.' then
      match scanDigits1 cs with
      | .error e => .error e
      | .ok [] => .ok []
      | .ok (e :: rest) => if e = 'e' ∨ e = 'E' then scanExp rest else .ok (e :: rest)
    else if c = 'e' ∨ c = 'E' then scanExp cs
    else .ok (c :: cs)

/-- The integer part of a number after its optional sign, and what follows. -/
def scanInt : List Char → Except ScanErr (List Char)
  | [] => .error .truncated
  | c :: cs =>
    if c = '0' then scanFracExp cs
    else if c.isDigit then scanFracExp (cs.dropWhile Char.isDigit)
    else .error .invalid

/-- A number literal. -/
def scanNumber : List Char → Except ScanErr (List Char)
  | [] => .error .truncated
  | c :: cs => if c = '-' then scanInt cs else scanInt (c :: cs)

/-- The rest of a literal name (`true`, `false`, `null`), letter by letter. -/
def scanLit : List Char → List Char → Except ScanErr (List Char)
  | [], cs => .ok cs
  | _ :: _, [] => .error .truncated
  | l :: ls, c :: cs => if c = l then scanLit ls cs else .error .invalid

/-- The elements of a non-empty array up to its closing bracket; `pv` reads one
value. -/
def parseElems (pv : List Char → Scan Json) : Nat → List Char → Scan (List Json)
  | 0, _ => .error .fuel
  | n + 1, cs =>
    match pv (skipSpace cs) with
    | .error e => .error e
    | .ok (v, cs1) =>
      match skipSpace cs1 with
      | [] => .error .truncated
      | c :: cs2 =>
        if c = ',' then
          match parseElems pv n cs2 with
          | .ok (vs, rest) => .ok (v :: vs, rest)
          | .error e => .error e
        else if c = ']' then .ok ([v], cs2)
        else .error .invalid

/-- The members of a non-empty object up to its closing brace; `pv` reads one
value. -/
def parseMembers (pv : List Char → Scan Json) : Nat → List Char → Scan (List (String × Json))
  | 0, _ => .error .fuel
  | n + 1, cs =>
    match skipSpace cs with
    | [] => .error .truncated
    | q :: cs0 =>
      if q ≠ '"' then .error .invalid
      else
        match scanString cs0 with
        | .error e => .error e
        | .ok (key, cs1) =>
          match skipSpace cs1 with
          | [] => .error .truncated
          | colon :: cs2 =>
            if colon ≠ ':' then .error .invalid
            else
              match pv (skipSpace cs2) with
              | .error e => .error e
              | .ok (v, cs3) =>
                match skipSpace cs3 with
                | [] => .error .truncated
                | c :: cs4 =>
                  if c = ',' then
                    match parseMembers pv n cs4 with
                    | .ok (ms, rest) => .ok ((String.mk key, v) :: ms, rest)
                    | .error e => .error e
                  else if c = '}' then .ok ([(String.mk key, v)], cs4)
                  else .error .invalid

/-- The deepest nesting of arrays and objects the scanner of `encoding/json`
accepts. -/
def maxNestingDepth : Nat := 10000

/-- One JSON value at the head of the input (white space already skipped), by
the grammar of the scanner of `encoding/json`.  `depth` counts the arrays and
objects that are open around the value; opening one more than
`maxNestingDepth` is a scanner error. -/
def parseValue : Nat → Nat → List Char → Scan Json
  | 0, _, _ => .error .fuel
  | _ + 1, _, [] => .error .truncated
  | n + 1, depth, c :: cs =>
    if c = '{' then
      if maxNestingDepth < depth + 1 then .error .invalid
      else
        match skipSpace cs with
        | [] => .error .truncated
        | d :: cs1 =>
          if d = '}' then .ok (.object [], cs1)
          else
            match parseMembers (parseValue n (depth + 1)) n (d :: cs1) with
            | .ok (ms, rest) => .ok (.object ms, rest)
            | .error e => .error e
    else if c = '[' then
      if maxNestingDepth < depth + 1 then .error .invalid
      else
        match skipSpace cs with
        | [] => .error .truncated
        | d :: cs1 =>
          if d = ']' then .ok (.array [], cs1)
          else
            match parseElems (parseValue n (depth + 1)) n (d :: cs1) with
            | .ok (vs, rest) => .ok (.array vs, rest)
            | .error e => .error e
    else if c = '"' then
      match scanString cs with
      | .ok (s, rest) => .ok (.string (String.mk s), rest)
      | .error e => .error e
    else if c = '-' ∨ c.isDigit then
      match scanNumber (c :: cs) with
      | .ok rest => .ok (.number, rest)
      | .error e => .error e
    else if c = 't' then
      match scanLit ['r', 'u', 'e'] cs with
      | .ok rest => .ok (.bool true, rest)
      | .error e => .error e
    else if c = 'f' then
      match scanLit ['a', 'l', 's', 'e'] cs with
      | .ok rest => .ok (.bool false, rest)
      | .error e => .error e
    else if c = 'n' then
      match scanLit ['u', 'l', 'l'] cs with
      | .ok rest => .ok (.null, rest)
      | .error e => .error e
    else .error .invalid

/-- An array or an object: the values whose end the scanner sees at their
closing bracket, without looking at the next byte. -/
def Json.isComposite : Json → Bool
  | .array _ => true
  | .object _ => true
  | _ => false

/-- The first JSON value of a body, as `Decoder.Decode` reads it: leading white
space is skipped, one value is scanned, and what follows the value is left
unread.  A body that ends before its first value is complete gives the error
that ended the body, `io.EOF` when nothing but white space arrived and
`io.ErrUnexpectedEOF` otherwise.  A literal, number or string is complete only
at the byte after it or at a clean end of the body, so when such a value is the
last thing that arrived before a read error, that error is returned. -/
def decodeFirst (body : String) (readErr : Option GoError) : Except GoError Json :=
  match parseValue (body.data.length + 1) 0 (skipSpace body.data) with
  | .ok (v, rest) =>
    match readErr with
    | some err => if rest.isEmpty ∧ ¬ v.isComposite then .error err else .ok v
    | none => .ok v
  | .error .truncated =>
    match readErr with
    | some err => .error err
    | none => if body.data.all isSpace then .error .ioEOF else .error .ioUnexpectedEOF
  | .error _ => .error .jsonInvalid

/-- The smallest character of a simple case-folding orbit, for the orbits that
hold an ASCII character: lower-case letters fold to upper case, and so do the
long s (U+017F) and the Kelvin sign (U+212A).  No other character folds to an
ASCII one, so on the all-ASCII field names below this agrees with `foldName`
of `encoding/json`. -/
def foldRune (c : Char) : Char :=
  if 'a' ≤ c ∧ c ≤ 'z' then Char.ofNat (c.toNat - 32)
  else if c = Char.ofNat 0x17F then 'S'
  else if c = Char.ofNat 0x212A then 'K'
  else c

/-- Case-folded form of an object key or field name. -/
def foldName (s : String) : String :=
  String.mk (s.data.map foldRune)

/-- The struct field an object key selects: the field of that exact JSON name,
else the field whose name equals the key under case folding. -/
def findField (names : List String) (key : String) : Option String :=
  match names.find? (fun n => n = key) with
  | some n => some n
  | none => names.find? (fun n => foldName n = foldName key)

/-- Kind of a JSON value, as `UnmarshalTypeError.Value` names it. -/
def jsonKind : Json → String
  | .null => "null"
  | .bool _ => "bool"
  | .number => "number"
  | .string _ => "string"
  | .array _ => "array"
  | .object _ => "object"

/-- Store a JSON value in a Go `string` field: a string is stored, `null`
leaves the field alone, any other value leaves it alone and records a type
error unless one is recorded already. -/
def storeString (old : String) (saved : Option GoError) : Json → String × Option GoError
  | .string s => (s, saved)
  | .null => (old, saved)
  | v =>
    match saved with
    | some e => (old, some e)
    | none => (old, some (.jsonUnmarshalType (jsonKind v)))

/-- Decode a JSON value into a struct: `null` leaves the zero value, an object
assigns its members in order, and nothing else fits a struct.  The first type
error recorded is returned once the whole value has been walked. -/
def unmarshalStruct {α : Type} (zero : α)
    (setMember : α × Option GoError → String × Json → α × Option GoError) :
    Json → Except GoError α
  | .null => .ok zero
  | .object ms =>
    match ms.foldl setMember (zero, none) with
    | (r, none) => .ok r
    | (_, some e) => .error e
  | v => .error (.jsonUnmarshalType (jsonKind v))

/-! ## Result types -/

/-- The struct `Result`. -/
structure Result where
  Success : String := ""
  deriving DecidableEq, Repr

/-- The struct `TextResult`: `Result` embedded, and `Message`. -/
structure TextResult extends Result where
  Message : String := ""
  deriving DecidableEq, Repr

/-- The struct `ProdiaResult`: `Result` embedded, `ImageURL` and `Base64`.  No
function of `lib.go` names this type. -/
structure ProdiaResult extends Result where
  ImageURL : String := ""
  Base64 : String := ""
  deriving DecidableEq, Repr

/-- The struct `Image`: `Result` embedded, and `Image`. -/
structure Image extends Result where
  Image : String := ""
  deriving DecidableEq, Repr

/-- One object member met while decoding into a `TextResult`: the JSON names of
its fields are `success` and `message`. -/
def setTextMember (st : TextResult × Option GoError) (kv : String × Json) :
    TextResult × Option GoError :=
  match findField ["success", "message"] kv.1 with
  | none => st
  | some name =>
    if name = "success" then
      let (s, e) := storeString st.1.Success st.2 kv.2
      ({ st.1 with Success := s }, e)
    else
      let (s, e) := storeString st.1.Message st.2 kv.2
      ({ st.1 with Message := s }, e)

/-- One object member met while decoding into an `Image`: the JSON names of its
fields are `success` and `image`. -/
def setImageMember (st : Image × Option GoError) (kv : String × Json) :
    Image × Option GoError :=
  match findField ["success", "image"] kv.1 with
  | none => st
  | some name =>
    if name = "success" then
      let (s, e) := storeString st.1.Success st.2 kv.2
      ({ st.1 with Success := s }, e)
    else
      let (s, e) := storeString st.1.Image st.2 kv.2
      ({ st.1 with Image := s }, e)

/-- The call `json.NewDecoder(resp.Body).Decode(&result)` for a `TextResult`. -/
def decodeTextResult (resp : Response) : Except GoError TextResult :=
  match decodeFirst resp.body resp.readErr with
  | .error e => .error e
  | .ok v => unmarshalStruct {} setTextMember v

/-- The call `json.NewDecoder(resp.Body).Decode(&result)` for an `Image`. -/
def decodeImage (resp : Response) : Except GoError Image :=
  match decodeFirst resp.body resp.readErr with
  | .error e => .error e
  | .ok v => unmarshalStruct {} setImageMember v

/-! ## The dispatchers -/

/-- The method `sendRequest`, lines 239-268 of `lib.go`. -/
def RsnChat.sendRequest (r : RsnChat) (env : Env) (endpoint : String) (payload : Payload) :
    Outcome TextResult :=
  match httpPost env (r.APIURL ++ endpoint) "application/json" payload with
  | (.error err, sent) => ⟨none, some err, sent⟩
  | (.ok resp, sent) =>
    if resp.statusCode = 200 then
      match decodeTextResult resp with
      | .error err => ⟨none, some err, sent⟩
      | .ok result => ⟨some result, none, sent⟩
    else if resp.statusCode = 401 then
      ⟨none, some (.errorsNew
        "unauthorized: API key is invalid or you do not have access to the resource"), sent⟩
    else if resp.statusCode = 403 then
      ⟨none, some (.errorsNew "forbidden: access to the resource is denied"), sent⟩
    else if resp.statusCode = 404 then
      ⟨none, some (.errorsNew "not found: the requested endpoint is not available"), sent⟩
    else
      ⟨none, some (.fmtErrorf "request failed with status: %d" (.int resp.statusCode)), sent⟩

/-- The request `sendImageRequest` builds, lines 275-280 of `lib.go`: a POST
to the base URL followed by the endpoint, on which Content-Type and then
Authorization are set. -/
def RsnChat.imageRequest (r : RsnChat) (endpoint : String) (payload : Payload) : Request :=
  let req : Request :=
    { method := "POST", url := r.APIURL ++ endpoint, header := [], jsonBody := payload }
  let req := { req with header := headerSet req.header "Content-Type" "application/json" }
  { req with header := headerSet req.header "Authorization" ("Bearer " ++ r.APIKey) }

/-- The method `sendImageRequest`, lines 270-305 of `lib.go`. -/
def RsnChat.sendImageRequest (r : RsnChat) (env : Env) (endpoint : String)
    (payload : Payload) : Outcome Image :=
  match env.newRequestErr (r.APIURL ++ endpoint) with
  | some err => ⟨none, some err, []⟩
  | none =>
    let req := r.imageRequest endpoint payload
    match env.roundTrip req with
    | .error err => ⟨none, some err, [req]⟩
    | .ok resp =>
      if resp.statusCode = 200 then
        match decodeImage resp with
        | .error err => ⟨none, some err, [req]⟩
        | .ok result => ⟨some result, none, [req]⟩
      else if resp.statusCode = 401 then
        ⟨none, some (.errorsNew "unauthorized: API key is invalid"), [req]⟩
      else if resp.statusCode = 403 then
        ⟨none, some (.errorsNew "forbidden: access to the resource is denied"), [req]⟩
      else if resp.statusCode = 404 then
        ⟨none, some (.errorsNew "not found: the requested endpoint is not available"), [req]⟩
      else
        ⟨none, some (.fmtErrorf "request failed with status: %d" (.int resp.statusCode)),
          [req]⟩

/-! ## The endpoint methods -/

/-- The method `Gpt`. -/
def RsnChat.Gpt (r : RsnChat) (env : Env) (prompt : String) : Outcome TextResult :=
  r.sendRequest env "/gpt" [("prompt", prompt)]

/-- The method `Openchat`. -/
def RsnChat.Openchat (r : RsnChat) (env : Env) (prompt : String) : Outcome TextResult :=
  r.sendRequest env "/openchat" [("prompt", prompt)]

/-- The method `Bard`. -/
def RsnChat.Bard (r : RsnChat) (env : Env) (prompt : String) : Outcome TextResult :=
  r.sendRequest env "/bard" [("prompt", prompt)]

/-- The method `Gemini`. -/
def RsnChat.Gemini (r : RsnChat) (env : Env) (prompt : String) : Outcome TextResult :=
  r.sendRequest env "/gemini" [("prompt", prompt)]

/-- The method `Bing`. -/
def RsnChat.Bing (r : RsnChat) (env : Env) (prompt : String) : Outcome TextResult :=
  r.sendRequest env "/bing" [("prompt", prompt)]

/-- The method `Llama`. -/
def RsnChat.Llama (r : RsnChat) (env : Env) (prompt : String) : Outcome TextResult :=
  r.sendRequest env "/llama" [("prompt", prompt)]

/-- The method `Mixtral`. -/
def RsnChat.Mixtral (r : RsnChat) (env : Env) (prompt : String) : Outcome TextResult :=
  r.sendRequest env "/mixtral" [("prompt", prompt)]

/-- The method `Claude`. -/
def RsnChat.Claude (r : RsnChat) (env : Env) (prompt : String) : Outcome TextResult :=
  r.sendRequest env "/claude" [("prompt", prompt)]

/-- The method `Codellama`. -/
def RsnChat.Codellama (r : RsnChat) (env : Env) (prompt : String) : Outcome TextResult :=
  r.sendRequest env "/codellama" [("prompt", prompt)]

/-- The method `Prodia`. -/
def RsnChat.Prodia (r : RsnChat) (env : Env) (prompt negativePrompt model : String) :
    Outcome Image :=
  r.sendImageRequest env "/prodia"
    [("prompt", prompt), ("negative_prompt", negativePrompt), ("model", model)]

/-- The method `Kandinsky`. -/
def RsnChat.Kandinsky (r : RsnChat) (env : Env) (prompt negativePrompt : String) :
    Outcome Image :=
  r.sendImageRequest env "/kandinsky" [("prompt", prompt), ("negative_prompt", negativePrompt)]

/-- The method `Absolutebeauty`. -/
def RsnChat.Absolutebeauty (r : RsnChat) (env : Env) (prompt negativePrompt : String) :
    Outcome Image :=
  r.sendImageRequest env "/absolutebeauty"
    [("prompt", prompt), ("negative_prompt", negativePrompt)]

/-- The method `Sdxl`. -/
def RsnChat.Sdxl (r : RsnChat) (env : Env) (prompt negativePrompt : String) : Outcome Image :=
  r.sendImageRequest env "/sdxl" [("prompt", prompt), ("negative_prompt", negativePrompt)]

/-- The method `Dalle`. -/
def RsnChat.Dalle (r : RsnChat) (env : Env) (prompt : String) : Outcome Image :=
  r.sendImageRequest env "/dalle" [("prompt", prompt)]

/-- The method `Icon`. -/
def RsnChat.Icon (r : RsnChat) (env : Env) (prompt : String) : Outcome Image :=
  r.sendImageRequest env "/icon" [("prompt", prompt)]

/-- The nine text-generation methods. -/
inductive TextMethod where
  | Gpt | Openchat | Bard | Gemini | Bing | Llama | Mixtral | Claude | Codellama
  deriving DecidableEq, Repr

/-- A call of a text-generation method. -/
def TextMethod.call (m : TextMethod) (r : RsnChat) (env : Env) (prompt : String) :
    Outcome TextResult :=
  match m with
  | .Gpt => r.Gpt env prompt
  | .Openchat => r.Openchat env prompt
  | .Bard => r.Bard env prompt
  | .Gemini => r.Gemini env prompt
  | .Bing => r.Bing env prompt
  | .Llama => r.Llama env prompt
  | .Mixtral => r.Mixtral env prompt
  | .Claude => r.Claude env prompt
  | .Codellama => r.Codellama env prompt

/-- The six image-generation methods. -/
inductive ImageMethod where
  | Prodia | Kandinsky | Absolutebeauty | Sdxl | Dalle | Icon
  deriving DecidableEq, Repr

/-- A call of an image-generation method; each method takes the arguments its
signature has and the others are not looked at. -/
def ImageMethod.call (m : ImageMethod) (r : RsnChat) (env : Env)
    (prompt negativePrompt model : String) : Outcome Image :=
  match m with
  | .Prodia => r.Prodia env prompt negativePrompt model
  | .Kandinsky => r.Kandinsky env prompt negativePrompt
  | .Absolutebeauty => r.Absolutebeauty env prompt negativePrompt
  | .Sdxl => r.Sdxl env prompt negativePrompt
  | .Dalle => r.Dalle env prompt
  | .Icon => r.Icon env prompt


/-! ## Vocabulary of the specification -/

/-- A stub server: every URL is accepted and every request gets `resp`. -/
def stubServer (resp : Response) : Env :=
  { newRequestErr := fun _ => none, roundTrip := fun _ => .ok resp }

/-- Endpoint suffix of each text method, as section 6 of the specification
lists them. -/
def specTextEndpoint : TextMethod → String
  | .Gpt => "/gpt"
  | .Openchat => "/openchat"
  | .Bard => "/bard"
  | .Gemini => "/gemini"
  | .Bing => "/bing"
  | .Llama => "/llama"
  | .Mixtral => "/mixtral"
  | .Claude => "/claude"
  | .Codellama => "/codellama"

/-- Endpoint suffix of each image method, as section 6 of the specification
lists them. -/
def specImageEndpoint : ImageMethod → String
  | .Prodia => "/prodia"
  | .Kandinsky => "/kandinsky"
  | .Absolutebeauty => "/absolutebeauty"
  | .Sdxl => "/sdxl"
  | .Dalle => "/dalle"
  | .Icon => "/icon"

/-- The payload each image method hands to `sendImageRequest`, lines 207-237
of `lib.go`. -/
def imagePayload (m : ImageMethod) (prompt negativePrompt model : String) : Payload :=
  match m with
  | .Prodia => [("prompt", prompt), ("negative_prompt", negativePrompt), ("model", model)]
  | .Kandinsky => [("prompt", prompt), ("negative_prompt", negativePrompt)]
  | .Absolutebeauty => [("prompt", prompt), ("negative_prompt", negativePrompt)]
  | .Sdxl => [("prompt", prompt), ("negative_prompt", negativePrompt)]
  | .Dalle => [("prompt", prompt)]
  | .Icon => [("prompt", prompt)]

/-- The error class section 4.2 of the specification gives a status other than
200. -/
def specStatusClass (status : Int) : ErrorClass :=
  if status = 401 then .AuthenticationError
  else if status = 403 then .PermissionError
  else if status = 404 then .NotFoundError
  else .RequestFailedError status

/-! ## The JSON grammar of RFC 8259

Written from the RFC, not from the decoder: character classes are ranges of
code points, and the grammar is a relation on texts. -/

/-- White space (section 2): space, horizontal tab, line feed, carriage
return. -/
def RfcWs (w : List Char) : Prop :=
  ∀ c ∈ w, c.toNat = 0x20 ∨ c.toNat = 0x09 ∨ c.toNat = 0x0A ∨ c.toNat = 0x0D

instance (w : List Char) : Decidable (RfcWs w) :=
  inferInstanceAs (Decidable (∀ c ∈ w,
    c.toNat = 0x20 ∨ c.toNat = 0x09 ∨ c.toNat = 0x0A ∨ c.toNat = 0x0D))

/-- A decimal digit, `%x30-39`. -/
def RfcDigit (c : Char) : Prop :=
  0x30 ≤ c.toNat ∧ c.toNat ≤ 0x39

instance (c : Char) : Decidable (RfcDigit c) :=
  inferInstanceAs (Decidable (0x30 ≤ c.toNat ∧ c.toNat ≤ 0x39))

/-- A hexadecimal digit, in either case. -/
def RfcHexDigit (c : Char) : Prop :=
  RfcDigit c ∨ (0x41 ≤ c.toNat ∧ c.toNat ≤ 0x46) ∨ (0x61 ≤ c.toNat ∧ c.toNat ≤ 0x66)

instance (c : Char) : Decidable (RfcHexDigit c) :=
  inferInstanceAs (Decidable (RfcDigit c ∨ (0x41 ≤ c.toNat ∧ c.toNat ≤ 0x46)
    ∨ (0x61 ≤ c.toNat ∧ c.toNat ≤ 0x66)))

/-- One digit or more. -/
def RfcDigits (ds : List Char) : Prop :=
  ds ≠ [] ∧ ∀ c ∈ ds, RfcDigit c

instance (ds : List Char) : Decidable (RfcDigits ds) :=
  inferInstanceAs (Decidable (ds ≠ [] ∧ ∀ c ∈ ds, RfcDigit c))

/-- Value of a hexadecimal digit. -/
def rfcHexValue (c : Char) : Nat :=
  if c.toNat ≤ 0x39 then c.toNat - 0x30
  else if c.toNat ≤ 0x46 then c.toNat - 0x41 + 10
  else c.toNat - 0x61 + 10

/-- Value of the four hexadecimal digits of a `\u` escape. -/
def rfcHex4Value (a b c d : Char) : Nat :=
  0x1000 * rfcHexValue a + 0x100 * rfcHexValue b + 0x10 * rfcHexValue c + rfcHexValue d

/-- The two-character escapes (section 7) and the characters they stand for. -/
def rfcEscapes : List (Char × Char) :=
  [('"', Char.ofNat 0x22), ('\\', Char.ofNat 0x5C), ('/', Char.ofNat 0x2F),
   ('b', Char.ofNat 0x08), ('f', Char.ofNat 0x0C), ('n', Char.ofNat 0x0A),
   ('r', Char.ofNat 0x0D), ('t', Char.ofNat 0x09)]

/-- The characters between the quotes of a well-formed string literal
(section 7): unescaped characters from U+0020 on other than the quote and the
backslash, two-character escapes, and `\u` escapes of four hexadecimal digits. -/
inductive RfcChars : List Char → Prop where
  | nil : RfcChars []
  | unescaped (c : Char) (l : List Char) :
      0x20 ≤ c.toNat → c ≠ '"' → c ≠ '\\' → RfcChars l → RfcChars (c :: l)
  | escape (e x : Char) (l : List Char) :
      (e, x) ∈ rfcEscapes → RfcChars l → RfcChars ('\\' :: e :: l)
  | unicode (h1 h2 h3 h4 : Char) (l : List Char) :
      RfcHexDigit h1 → RfcHexDigit h2 → RfcHexDigit h3 → RfcHexDigit h4 → RfcChars l →
      RfcChars ('\\' :: 'u' :: h1 :: h2 :: h3 :: h4 :: l)

/-- The string a well-formed string literal stands for: `RfcString l s` says
that the characters `l` between the quotes denote `s`.  A `\u` escape outside
the surrogate range denotes its code point, and a high surrogate followed by a
low surrogate denotes the code point of the pair; an unpaired surrogate has no
denotation here. -/
inductive RfcString : List Char → List Char → Prop where
  | nil : RfcString [] []
  | unescaped (c : Char) (l s : List Char) :
      0x20 ≤ c.toNat → c ≠ '"' → c ≠ '\\' → RfcString l s → RfcString (c :: l) (c :: s)
  | escape (e x : Char) (l s : List Char) :
      (e, x) ∈ rfcEscapes → RfcString l s → RfcString ('\\' :: e :: l) (x :: s)
  | unicode (h1 h2 h3 h4 : Char) (l s : List Char) :
      RfcHexDigit h1 → RfcHexDigit h2 → RfcHexDigit h3 → RfcHexDigit h4 →
      rfcHex4Value h1 h2 h3 h4 < 0xD800 ∨ 0xE000 ≤ rfcHex4Value h1 h2 h3 h4 →
      RfcString l s →
      RfcString ('\\' :: 'u' :: h1 :: h2 :: h3 :: h4 :: l)
        (Char.ofNat (rfcHex4Value h1 h2 h3 h4) :: s)
  | surrogates (h1 h2 h3 h4 g1 g2 g3 g4 : Char) (l s : List Char) :
      RfcHexDigit h1 → RfcHexDigit h2 → RfcHexDigit h3 → RfcHexDigit h4 →
      RfcHexDigit g1 → RfcHexDigit g2 → RfcHexDigit g3 → RfcHexDigit g4 →
      0xD800 ≤ rfcHex4Value h1 h2 h3 h4 ∧ rfcHex4Value h1 h2 h3 h4 < 0xDC00 →
      0xDC00 ≤ rfcHex4Value g1 g2 g3 g4 ∧ rfcHex4Value g1 g2 g3 g4 < 0xE000 →
      RfcString l s →
      RfcString
        ('\\' :: 'u' :: h1 :: h2 :: h3 :: h4 :: '\\' :: 'u' :: g1 :: g2 :: g3 :: g4 :: l)
        (Char.ofNat (0x10000 + (rfcHex4Value h1 h2 h3 h4 - 0xD800) * 0x400
          + (rfcHex4Value g1 g2 g3 g4 - 0xDC00)) :: s)

/-- A number (section 6): an optional minus, an integer part without a leading
zero, an optional fraction and an optional exponent. -/
def RfcNumber (cs : List Char) : Prop :=
  ∃ minus int frac exp : List Char,
    cs = minus ++ (int ++ (frac ++ exp)) ∧
    (minus = [] ∨ minus = ['-']) ∧
    (int = ['0'] ∨ (RfcDigits int ∧ int.head? ≠ some '0')) ∧
    (frac = [] ∨ ∃ ds, RfcDigits ds ∧ frac = '.' :: ds) ∧
    (exp = [] ∨ ∃ e sign ds, (e = 'e' ∨ e = 'E') ∧ (sign = [] ∨ sign = ['+'] ∨ sign = ['-']) ∧
      RfcDigits ds ∧ exp = e :: (sign ++ ds))

/-- The three sorts of text the grammar of values is made of. -/
inductive RfcKind where
  | value
  | elements
  | members

/-- The grammar of values (sections 3 to 5): `Rfc .value t` says that `t` is a
JSON value, `Rfc .elements t` that `t` is what stands between the brackets of a
non-empty array, `Rfc .members t` that `t` is what stands between the braces of
a non-empty object. -/
inductive Rfc : RfcKind → List Char → Prop where
  | litNull : Rfc .value ['n', 'u', 'l', 'l']
  | litTrue : Rfc .value ['t', 'r', 'u', 'e']
  | litFalse : Rfc .value ['f', 'a', 'l', 's', 'e']
  | number (cs : List Char) : RfcNumber cs → Rfc .value cs
  | string (l : List Char) : RfcChars l → Rfc .value ('"' :: (l ++ ['"']))
  | emptyArray (w : List Char) : RfcWs w → Rfc .value ('[' :: (w ++ [']']))
  | array (es : List Char) : Rfc .elements es → Rfc .value ('[' :: (es ++ [']']))
  | emptyObject (w : List Char) : RfcWs w → Rfc .value ('{' :: (w ++ ['}']))
  | object (ms : List Char) : Rfc .members ms → Rfc .value ('{' :: (ms ++ ['}']))
  | element (w1 v w2 : List Char) :
      RfcWs w1 → Rfc .value v → RfcWs w2 → Rfc .elements (w1 ++ (v ++ w2))
  | elementsCons (w1 v w2 es : List Char) :
      RfcWs w1 → Rfc .value v → RfcWs w2 → Rfc .elements es →
      Rfc .elements (w1 ++ (v ++ (w2 ++ ',' :: es)))
  | member (w1 k w2 w3 v w4 : List Char) :
      RfcWs w1 → RfcChars k → RfcWs w2 → RfcWs w3 → Rfc .value v → RfcWs w4 →
      Rfc .members (w1 ++ '"' :: (k ++ '"' :: (w2 ++ ':' :: (w3 ++ (v ++ w4)))))
  | membersCons (w1 k w2 w3 v w4 ms : List Char) :
      RfcWs w1 → RfcChars k → RfcWs w2 → RfcWs w3 → Rfc .value v → RfcWs w4 →
      Rfc .members ms →
      Rfc .members (w1 ++ '"' :: (k ++ '"' :: (w2 ++ ':' :: (w3 ++ (v ++ (w4 ++ ',' :: ms))))))

/-- A JSON text (section 2): one value between optional white space. -/
def RfcText (body : List Char) : Prop :=
  ∃ w1 v w2 : List Char, RfcWs w1 ∧ Rfc .value v ∧ RfcWs w2 ∧ body = w1 ++ (v ++ w2)

/-- A body starts with a JSON value: after optional white space stands one
well-formed value, whatever follows it. -/
def StartsWithRfcValue (body : List Char) : Prop :=
  ∃ w v rest : List Char, RfcWs w ∧ Rfc .value v ∧ body = w ++ (v ++ rest)

/-- One member of an object whose name denotes `k` and whose value is a string
literal that denotes `v`, with the white space the grammar allows around its
three tokens. -/
def RfcStringMember (m : List Char) (k v : String) : Prop :=
  ∃ w1 a w2 w3 b w4 : List Char,
    RfcWs w1 ∧ RfcString a k.data ∧ RfcWs w2 ∧ RfcWs w3 ∧ RfcString b v.data ∧ RfcWs w4 ∧
    m = w1 ++ '"' :: (a ++ '"' :: (w2 ++ ':' :: (w3 ++ '"' :: (b ++ '"' :: w4))))

/-- A JSON text that is an object of two string members, `k1` with the value
`v1` and then `k2` with the value `v2`. -/
def RfcObject2 (body : List Char) (k1 v1 k2 v2 : String) : Prop :=
  ∃ w0 m1 m2 w9 : List Char,
    RfcWs w0 ∧ RfcStringMember m1 k1 v1 ∧ RfcStringMember m2 k2 v2 ∧ RfcWs w9 ∧
    body = w0 ++ '{' :: (m1 ++ ',' :: (m2 ++ '}' :: w9))

/-- The JSON body `{"success": s, "message": m}`: an object text with these two
members, in either order. -/
def IsTextBody (body : String) (s m : String) : Prop :=
  RfcObject2 body.data "success" s "message" m ∨ RfcObject2 body.data "message" m "success" s

/-- The JSON body `{"success": s, "image": i}`: an object text with these two
members, in either order. -/
def IsImageBody (body : String) (s i : String) : Prop :=
  RfcObject2 body.data "success" s "image" i ∨ RfcObject2 body.data "image" i "success" s

/-- A body is a JSON text when it is one JSON value between optional white
space and nothing else (RFC 8259, section 2), as the scanner decides it. -/
def isJSONText (body : String) : Bool :=
  match parseValue (body.data.length + 1) 0 (skipSpace body.data) with
  | .ok (_, rest) => (skipSpace rest).isEmpty
  | .error _ => false

/-! ## Invariants used in the proofs -/

/-- A scan result is good for an input of length `k`: a value leaves strictly
less input than that, and a failure is not the recursion budget. -/
def Scan.Good {α : Type} (k : Nat) : Scan α → Prop
  | .ok (_, rest) => rest.length < k
  | .error e => e ≠ .fuel

/-- The same for a scanner that returns only the input left: the input does not
grow, and a failure is not the recursion budget. -/
def restGood (k : Nat) : Except ScanErr (List Char) → Prop
  | .ok rest => rest.length ≤ k
  | .error e => e ≠ .fuel

/-- A client as `NewRsnChat` returns it for the key `k` and the base URL
`http://h`. -/
def sampleClient : RsnChat :=
  { APIKey := "k", APIURL := "http://h", Headers := [("Authorization", "Bearer k")] }

/-- A server that accepts every URL and checks the Authorization header: a
request without one is answered with status 401, a request with one with status
200 and the body `body`. -/
def authServerWith (body : String) : Env :=
  { newRequestErr := fun _ => none,
    roundTrip := fun q =>
      match headerGet q.header "Authorization" with
      | none => .ok ⟨401, "", none⟩
      | some _ => .ok ⟨200, body, none⟩ }

/-- The server `authServerWith` with an empty object as its body. -/
def authServer : Env :=
  authServerWith (String.mk ['{', '}'])

/-- A server whose `http.NewRequest` refuses the URL `:` and no other, and that
answers every request with status 200 and an empty object. -/
def pickyServer : Env :=
  { newRequestErr := fun u => if u = ":" then some (.transport "missing protocol scheme") else none,
    roundTrip := fun _ => .ok ⟨200, String.mk ['{', '}'], none⟩ }
/-! ## Theorems -/

/-- Claim C3: `NewRsnChat` with an empty key returns no client and a configuration
error for every list of base-URL overrides, and with two or more overrides it
returns no client and the configuration error `too many arguments` for every
key; in both cases no request is sent. -/
theorem NewRsnChat_configuration_error (env : Env) :
    (∀ urls : List String, ∃ e, NewRsnChat env "" urls = ⟨none, some e, []⟩ ∧
        e.errorClass = .ConfigurationError) ∧
    (∀ (key u1 u2 : String) (rest : List String),
      NewRsnChat env key (u1 :: u2 :: rest)
        = ⟨none, some (.errorsNew "too many arguments"), []⟩ ∧
      (GoError.errorsNew "too many arguments").errorClass = .ConfigurationError) := by
  refine ⟨fun urls => ?_, fun key u1 u2 rest => ⟨by simp [NewRsnChat], by decide⟩⟩
  match urls with
  | [] => exact ⟨.errorsNew "please provide API key", by simp [NewRsnChat], by decide⟩
  | [u] => exact ⟨.errorsNew "please provide API key", by simp [NewRsnChat], by decide⟩
  | u1 :: u2 :: rest => exact ⟨.errorsNew "too many arguments", by simp [NewRsnChat], by decide⟩

/-- Claim C8: for a non-empty key `k` and at most one override, when the validation
request is answered with status 200 and a completely read body that contains
`API key validated`, `NewRsnChat` returns no error and a client whose `APIKey`
is `k`, whose `APIURL` is the override, or the fixed default when there is none,
and whose `Headers` map `Authorization` to `Bearer ` followed by `k`. -/
theorem NewRsnChat_success (env : Env) (k : String) (urls : List String) (resp : Response)
    (hk : k ≠ "") (hu : urls.length ≤ 1)
    (hurl : env.newRequestErr (urls.headD defaultAPIURL ++ "/validate") = none)
    (hresp : env.roundTrip (postRequest (urls.headD defaultAPIURL ++ "/validate")
        "application/json" [("key", k)]) = .ok resp)
    (hread : resp.readErr = none)
    (hmark : stringsContains resp.body "API key validated" = true)
    (hstatus : resp.statusCode = 200) :
    ∃ c : RsnChat,
      NewRsnChat env k urls = ⟨some c, none, [postRequest (urls.headD defaultAPIURL ++ "/validate")
        "application/json" [("key", k)]]⟩ ∧
      c.APIKey = k ∧
      (urls = [] → c.APIURL = "https://api.rsnai.org/api/v1/user") ∧
      (∀ u, urls = [u] → c.APIURL = u) ∧
      c.Headers = [("Authorization", "Bearer " ++ k)] ∧
      headerGet c.Headers "Authorization" = some ("Bearer " ++ k) := by
  refine ⟨⟨k, urls.headD defaultAPIURL, [("Authorization", "Bearer " ++ k)]⟩, ?_, rfl, ?_, ?_, rfl,
    by simp [headerGet]⟩
  · match urls, hu with
    | [], _ =>
      simp only [List.headD_nil] at hurl hresp ⊢
      simp [NewRsnChat, httpPost, hurl, hresp, hk, hread, hmark, hstatus]
    | [u], _ =>
      simp only [List.headD_cons] at hurl hresp ⊢
      simp [NewRsnChat, httpPost, hurl, hresp, hk, hread, hmark, hstatus]
  · rintro rfl; rfl
  · rintro u rfl; rfl

/-- Claim C8 at the key `secret` with the override `http://localhost:8080`. -/
theorem NewRsnChat_success_witness :
    ∃ c : RsnChat,
      NewRsnChat ⟨fun _ => none, fun _ => .ok ⟨200, "\x7b\"message\":\"API key validated\"\x7d", none⟩⟩
          "secret" ["http://localhost:8080"]
        = ⟨some c, none, [postRequest ("http://localhost:8080" ++ "/validate")
            "application/json" [("key", "secret")]]⟩ ∧
      c.APIKey = "secret" ∧
      (["http://localhost:8080"] = ([] : List String) → c.APIURL = "https://api.rsnai.org/api/v1/user") ∧
      (∀ u, ["http://localhost:8080"] = [u] → c.APIURL = u) ∧
      c.Headers = [("Authorization", "Bearer " ++ "secret")] ∧
      headerGet c.Headers "Authorization" = some ("Bearer " ++ "secret") :=
  NewRsnChat_success ⟨fun _ => none, fun _ => .ok ⟨200, "\x7b\"message\":\"API key validated\"\x7d", none⟩⟩
    "secret" ["http://localhost:8080"] ⟨200, "\x7b\"message\":\"API key validated\"\x7d", none⟩
    (by decide) (by decide) rfl rfl rfl (by decide) rfl

/-- Claim C1, the code at its failing inputs: when the validation body arrives
completely and lacks `API key validated`, `NewRsnChat` returns no client and a
nil error, at status 200 as at status 401.  Only a body that holds the marker
under a status other than 200 gives the error `invalid API Key`. -/
theorem NewRsnChat_missing_marker_returns_nil_nil :
    NewRsnChat ⟨fun _ => none, fun _ => .ok ⟨200, "\x7b\"error\":\"invalid key\"\x7d", none⟩⟩ "k" []
        = ⟨none, none, [postRequest "https://api.rsnai.org/api/v1/user/validate"
            "application/json" [("key", "k")]]⟩ ∧
    NewRsnChat ⟨fun _ => none, fun _ => .ok ⟨401, "Unauthorized", none⟩⟩ "k" ["http://h"]
        = ⟨none, none, [postRequest "http://h/validate" "application/json" [("key", "k")]]⟩ ∧
    NewRsnChat ⟨fun _ => none, fun _ => .ok ⟨401, "API key validated", none⟩⟩ "k" ["http://h"]
        = ⟨none, some (.fmtErrorf "invalid API Key: %s" (.str "k")),
            [postRequest "http://h/validate" "application/json" [("key", "k")]]⟩ := by
  refine ⟨by decide, by decide, by decide⟩

theorem httpPost_sent (env : Env) (url ct : String) (body : Payload) :
    (httpPost env url ct body).2
      = if env.newRequestErr url = none then [postRequest url ct body] else [] := by
  unfold httpPost
  cases h : env.newRequestErr url <;> simp

theorem sendRequest_sent (r : RsnChat) (env : Env) (e : String) (p : Payload) :
    (r.sendRequest env e p).sent
      = if env.newRequestErr (r.APIURL ++ e) = none
        then [postRequest (r.APIURL ++ e) "application/json" p] else [] := by
  rw [← httpPost_sent]
  unfold RsnChat.sendRequest
  rcases httpPost env (r.APIURL ++ e) "application/json" p with ⟨res, sent⟩
  cases res with
  | error err => rfl
  | ok resp =>
    simp only
    split_ifs
    · cases decodeTextResult resp <;> rfl
    all_goals rfl

theorem sendImageRequest_sent (r : RsnChat) (env : Env) (e : String) (p : Payload) :
    (r.sendImageRequest env e p).sent
      = if env.newRequestErr (r.APIURL ++ e) = none then [r.imageRequest e p] else [] := by
  unfold RsnChat.sendImageRequest
  cases h : env.newRequestErr (r.APIURL ++ e) with
  | some err => simp
  | none =>
    simp only
    cases env.roundTrip (r.imageRequest e p) with
    | error err => rfl
    | ok resp =>
      simp only
      split_ifs
      · cases decodeImage resp <;> rfl
      all_goals rfl

/-- Claim C7, the code at its failing input: no request a text method sends has an
Authorization header.  `Gpt` sends a POST whose only header is Content-Type,
while `Dalle`, on the image path, sends Content-Type and `Authorization`. -/
theorem text_requests_carry_no_authorization :
    (∀ (m : TextMethod) (r : RsnChat) (env : Env) (prompt : String),
      (m.call r env prompt).sent.filterMap (fun q => headerGet q.header "Authorization") = []) ∧
    sampleClient.Gpt
        (stubServer ⟨200, "\x7b\"success\":\"true\",\"message\":\"hi\"\x7d", none⟩) "hello"
      = ⟨some { Success := "true", Message := "hi" }, none,
          [⟨"POST", "http://h/gpt", [("Content-Type", "application/json")],
            [("prompt", "hello")]⟩]⟩ ∧
    (sampleClient.Dalle
        (stubServer ⟨200, "\x7b\x7d", none⟩) "hello").sent
      = [⟨"POST", "http://h/dalle",
          [("Content-Type", "application/json"), ("Authorization", "Bearer k")],
          [("prompt", "hello")]⟩] := by
  refine ⟨fun m r env prompt => ?_, by decide, by decide⟩
  have h : ∃ e p, m.call r env prompt = r.sendRequest env e p := by
    cases m <;> exact ⟨_, _, rfl⟩
  obtain ⟨e, p, h⟩ := h
  rw [h, sendRequest_sent]
  split_ifs <;> simp [postRequest, headerSet, headerGet]

/-- Claim C9: every text method is `sendRequest` at its own suffix and every image
method is `sendImageRequest` at its own suffix, in every environment; the URL of
the request sent is the base URL followed by that suffix; and the fifteen
suffixes are pairwise distinct. -/
theorem endpoint_routing :
    (∀ (m : TextMethod) (r : RsnChat) (env : Env) (prompt : String),
      m.call r env prompt = r.sendRequest env (specTextEndpoint m) [("prompt", prompt)] ∧
      (m.call r env prompt).sent.map Request.url
        = if env.newRequestErr (r.APIURL ++ specTextEndpoint m) = none
          then [r.APIURL ++ specTextEndpoint m] else []) ∧
    (∀ (m : ImageMethod) (r : RsnChat) (env : Env) (prompt negativePrompt model : String),
      (∃ payload : Payload, m.call r env prompt negativePrompt model
        = r.sendImageRequest env (specImageEndpoint m) payload) ∧
      (m.call r env prompt negativePrompt model).sent.map Request.url
        = if env.newRequestErr (r.APIURL ++ specImageEndpoint m) = none
          then [r.APIURL ++ specImageEndpoint m] else []) ∧
    ([TextMethod.Gpt, .Openchat, .Bard, .Gemini, .Bing, .Llama, .Mixtral, .Claude,
        .Codellama].map specTextEndpoint
      ++ [ImageMethod.Prodia, .Kandinsky, .Absolutebeauty, .Sdxl, .Dalle, .Icon].map
        specImageEndpoint).Nodup := by
  refine ⟨fun m r env prompt => ?_, fun m r env prompt negativePrompt model => ?_, by decide⟩
  · have h : m.call r env prompt = r.sendRequest env (specTextEndpoint m) [("prompt", prompt)] := by
      cases m <;> rfl
    refine ⟨h, ?_⟩
    rw [h, sendRequest_sent]
    split_ifs <;> simp [postRequest]
  · have h : ∃ payload : Payload, m.call r env prompt negativePrompt model
        = r.sendImageRequest env (specImageEndpoint m) payload := by
      cases m <;> exact ⟨_, rfl⟩
    refine ⟨h, ?_⟩
    obtain ⟨payload, hp⟩ := h
    rw [hp, sendImageRequest_sent]
    split_ifs <;> simp [RsnChat.imageRequest]

/-- Claim C6 fails for `Dalle` and `Icon`: the payload they send is `prompt` alone,
with no `negative_prompt` key. -/
theorem Dalle_payload_lacks_negative_prompt :
    (sampleClient.Dalle
        (stubServer ⟨200, "\x7b\x7d", none⟩) "a cat").sent.map
          (fun q => (q.jsonBody, q.jsonBody.get? "negative_prompt"))
      = [([("prompt", "a cat")], none)] ∧
    (sampleClient.Icon
        (stubServer ⟨200, "\x7b\x7d", none⟩) "a cat").sent.map
          (fun q => (q.jsonBody, q.jsonBody.get? "negative_prompt"))
      = [([("prompt", "a cat")], none)] := by
  constructor <;> decide

/-- Claim C10, the code at its failing input: `Prodia` decodes into `Image`, so a
status-200 body with `imageUrl` and `base64` gives a result that holds neither
value, and the result is the same whatever the two values are. -/
theorem Prodia_drops_imageUrl_and_base64 :
    sampleClient.Prodia
        (stubServer ⟨200,
          "\x7b\"success\":\"true\",\"imageUrl\":\"https://cdn/x.png\",\"base64\":\"QUJD\"\x7d", none⟩)
        "a cat" "blurry" "sdv1_4.ckpt [7460a6fa]"
      = ⟨some { Success := "true", Image := "" }, none,
          [⟨"POST", "http://h/prodia",
            [("Content-Type", "application/json"), ("Authorization", "Bearer k")],
            [("prompt", "a cat"), ("negative_prompt", "blurry"),
              ("model", "sdv1_4.ckpt [7460a6fa]")]⟩]⟩ ∧
    (sampleClient.Prodia
        (stubServer ⟨200,
          "\x7b\"success\":\"true\",\"imageUrl\":\"https://cdn/x.png\",\"base64\":\"QUJD\"\x7d", none⟩)
        "a cat" "blurry" "sdv1_4.ckpt [7460a6fa]").result
      = (sampleClient.Prodia
        (stubServer ⟨200,
          "\x7b\"success\":\"true\",\"imageUrl\":\"other\",\"base64\":\"other\"\x7d", none⟩)
        "a cat" "blurry" "sdv1_4.ckpt [7460a6fa]").result := by
  constructor <;> decide

theorem scanStringFrom_quote (p : Option Nat) (cs : List Char) :
    scanStringFrom p ('"' :: cs) = .ok (flushPending p [], cs) := by
  rw [scanStringFrom.eq_def]; simp

theorem scanStringFrom_plain (p : Option Nat) (c : Char) (cs : List Char)
    (h1 : c ≠ '"') (h2 : c ≠ '\\') (h3 : ¬ c.toNat < 0x20) :
    scanStringFrom p (c :: cs) = pushPending p (pushChar c (scanStringFrom none cs)) := by
  rw [scanStringFrom.eq_def]; simp [h1, h2, h3]

theorem scanStringFrom_escape (p : Option Nat) (e x : Char) (cs : List Char)
    (hu : e ≠ 'u') (hx : escapeChar e = some x) :
    scanStringFrom p ('\\' :: e :: cs) = pushPending p (pushChar x (scanStringFrom none cs)) := by
  rw [scanStringFrom.eq_def]; simp [hu, hx]

theorem scanStringFrom_unicode (p : Option Nat) (h1 h2 h3 h4 : Char) (n : Nat)
    (cs : List Char) (hx : hex4 h1 h2 h3 h4 = some n) (hn : n < 0xD800 ∨ 0xE000 ≤ n) :
    scanStringFrom p ('\\' :: 'u' :: h1 :: h2 :: h3 :: h4 :: cs)
      = pushPending p (pushChar (Char.ofNat n) (scanStringFrom none cs)) := by
  rw [scanStringFrom.eq_def]
  have a : ¬ (56320 ≤ n ∧ n < 57344) := by omega
  have b : ¬ (55296 ≤ n ∧ n < 56320) := by omega
  simp [hx, a, b]

theorem scanGood_mono {α : Type} {k k' : Nat} {r : Scan α} (h : Scan.Good k r) (hk : k ≤ k') :
    Scan.Good k' r := by
  cases r with
  | error e => exact h
  | ok x => obtain ⟨v, rest⟩ := x; simp only [Scan.Good] at h ⊢; omega

theorem scanGood_pushChar {k : Nat} {r : Scan (List Char)} (c : Char) (h : Scan.Good k r) :
    Scan.Good k (pushChar c r) := by
  cases r with
  | error e => exact h
  | ok x => obtain ⟨v, rest⟩ := x; exact h

theorem scanGood_pushPending {k : Nat} {r : Scan (List Char)} (p : Option Nat)
    (h : Scan.Good k r) : Scan.Good k (pushPending p r) := by
  cases r with
  | error e => exact h
  | ok x => obtain ⟨v, rest⟩ := x; exact h

theorem skipSpace_length_le (cs : List Char) : (skipSpace cs).length ≤ cs.length := by
  induction cs with
  | nil => simp [skipSpace]
  | cons c cs ih =>
    simp only [skipSpace]
    split_ifs
    · simp only [List.length_cons]; omega
    · exact Nat.le_refl _

theorem scanStringFrom_good : ∀ (n : Nat) (p : Option Nat) (cs : List Char), cs.length ≤ n →
    Scan.Good cs.length (scanStringFrom p cs) := by
  intro n
  induction n with
  | zero =>
    intro p cs h
    have : cs = [] := List.length_eq_zero.mp (by omega)
    subst this
    rw [scanStringFrom.eq_def]; simp [Scan.Good]
  | succ n ih =>
    intro p cs hlen
    rw [scanStringFrom.eq_def]
    split
    · simp [Scan.Good]
    · rename_i pending c cs
      simp only [List.length_cons] at hlen
      split_ifs
      · simp [Scan.Good]
      · split
        · simp [Scan.Good]
        · rename_i e cs1
          simp only [List.length_cons] at hlen
          split_ifs
          · split
            · rename_i h1 h2 h3 h4 cs2
              simp only [List.length_cons] at hlen
              have hr : ∀ q, Scan.Good (c :: e :: h1 :: h2 :: h3 :: h4 :: cs2).length
                  (scanStringFrom q cs2) :=
                fun q => scanGood_mono (ih q cs2 (by omega)) (by simp only [List.length_cons]; omega)
              split
              · simp [Scan.Good]
              · split_ifs
                · split
                  · exact scanGood_pushChar _ (hr none)
                  · exact scanGood_pushChar _ (hr none)
                · exact scanGood_pushPending _ (hr _)
                · exact scanGood_pushPending _ (scanGood_pushChar _ (hr none))
            · split_ifs <;> simp [Scan.Good]
          · have hr : Scan.Good (c :: e :: cs1).length (scanStringFrom none cs1) :=
              scanGood_mono (ih none cs1 (by omega)) (by simp only [List.length_cons]; omega)
            split
            · exact scanGood_pushPending _ (scanGood_pushChar _ hr)
            · simp [Scan.Good]
      · simp [Scan.Good]
      · have hr : Scan.Good (c :: cs).length (scanStringFrom none cs) :=
          scanGood_mono (ih none cs (by omega)) (by simp only [List.length_cons]; omega)
        exact scanGood_pushPending _ (scanGood_pushChar _ hr)

theorem dropWhile_length_le (p : Char → Bool) (cs : List Char) :
    (cs.dropWhile p).length ≤ cs.length := by
  induction cs with
  | nil => simp
  | cons c cs ih =>
    simp only [List.dropWhile_cons]
    split_ifs
    · simp only [List.length_cons]; omega
    · exact Nat.le_refl _

theorem scanDigits1_good (cs : List Char) : restGood cs.length (scanDigits1 cs) := by
  cases cs with
  | nil => simp [scanDigits1, restGood]
  | cons c cs =>
    simp only [scanDigits1]
    split_ifs
    · have := dropWhile_length_le Char.isDigit cs
      simp only [restGood, List.length_cons]; omega
    · simp [restGood]

theorem restGood_mono {k k' : Nat} {r : Except ScanErr (List Char)} (h : restGood k r)
    (hk : k ≤ k') : restGood k' r := by
  cases r with
  | error e => exact h
  | ok x => simp only [restGood] at h ⊢; omega

theorem scanExp_good (cs : List Char) : restGood cs.length (scanExp cs) := by
  cases cs with
  | nil => simp [scanExp, restGood]
  | cons c cs =>
    simp only [scanExp]
    split_ifs
    · exact restGood_mono (scanDigits1_good cs) (by simp)
    · exact scanDigits1_good _

theorem scanFracExp_good (cs : List Char) : restGood cs.length (scanFracExp cs) := by
  cases cs with
  | nil => simp [scanFracExp, restGood]
  | cons c cs =>
    simp only [scanFracExp]
    split_ifs
    · have h := scanDigits1_good cs
      split
      · rename_i e he
        rw [he] at h
        exact h
      · simp [restGood]
      · rename_i e rest he
        rw [he] at h
        simp only [restGood, List.length_cons] at h
        split_ifs
        · exact restGood_mono (scanExp_good rest) (by simp only [List.length_cons]; omega)
        · simp only [restGood, List.length_cons]; omega
    · exact restGood_mono (scanExp_good cs) (by simp)
    · simp [restGood]

theorem scanInt_good (c : Char) (cs : List Char) : restGood cs.length (scanInt (c :: cs)) := by
  simp only [scanInt]
  split_ifs
  · exact scanFracExp_good cs
  · exact restGood_mono (scanFracExp_good _) (dropWhile_length_le _ _)
  · simp [restGood]

theorem scanNumber_good (c : Char) (cs : List Char) :
    restGood cs.length (scanNumber (c :: cs)) := by
  simp only [scanNumber]
  split_ifs
  · cases cs with
    | nil => simp [scanInt, restGood]
    | cons d cs => exact restGood_mono (scanInt_good d cs) (by simp)
  · exact scanInt_good c cs

theorem scanLit_good (lit cs : List Char) : restGood cs.length (scanLit lit cs) := by
  induction lit generalizing cs with
  | nil => simp [scanLit, restGood]
  | cons l ls ih =>
    cases cs with
    | nil => simp [scanLit, restGood]
    | cons c cs =>
      simp only [scanLit]
      split_ifs
      · exact restGood_mono (ih cs) (by simp)
      · simp [restGood]

theorem skipSpace_cons_length {cs cs' : List Char} {c : Char} (h : skipSpace cs = c :: cs') :
    cs'.length < cs.length := by
  have := skipSpace_length_le cs
  rw [h] at this
  simpa using this

theorem parseElems_good (pv : List Char → Scan Json) (N : Nat)
    (hpv : ∀ cs, cs.length < N → Scan.Good cs.length (pv cs)) :
    ∀ (m : Nat) (cs : List Char), cs.length < m → cs.length < N →
      Scan.Good cs.length (parseElems pv m cs) := by
  intro m
  induction m with
  | zero => intro cs h; omega
  | succ m ih =>
    intro cs hm hN
    simp only [parseElems]
    have h0 := skipSpace_length_le cs
    have h1 := hpv (skipSpace cs) (by omega)
    split
    · rename_i e he
      rw [he] at h1
      exact h1
    · rename_i v cs1 he
      rw [he] at h1
      simp only [Scan.Good] at h1
      split
      · simp [Scan.Good]
      · rename_i c cs2 hc
        have h2 := skipSpace_cons_length hc
        split_ifs
        · have h3 := ih cs2 (by omega) (by omega)
          split
          · rename_i vs rest hr
            rw [hr] at h3
            simp only [Scan.Good] at h3 ⊢
            omega
          · rename_i e hr
            rw [hr] at h3
            exact h3
        · simp only [Scan.Good]; omega
        · simp [Scan.Good]

theorem parseMembers_good (pv : List Char → Scan Json) (N : Nat)
    (hpv : ∀ cs, cs.length < N → Scan.Good cs.length (pv cs)) :
    ∀ (m : Nat) (cs : List Char), cs.length < m → cs.length < N →
      Scan.Good cs.length (parseMembers pv m cs) := by
  intro m
  induction m with
  | zero => intro cs h; omega
  | succ m ih =>
    intro cs hm hN
    simp only [parseMembers]
    split
    · simp [Scan.Good]
    · rename_i q cs0 hq
      have h0 := skipSpace_cons_length hq
      split_ifs
      · simp [Scan.Good]
      · have hs := scanStringFrom_good cs0.length none cs0 (Nat.le_refl _)
        simp only [scanString]
        split
        · rename_i e he
          rw [he] at hs
          exact hs
        · rename_i key cs1 he
          rw [he] at hs
          simp only [Scan.Good] at hs
          split
          · simp [Scan.Good]
          · rename_i colon cs2 hc
            have h2 := skipSpace_cons_length hc
            split_ifs
            · simp [Scan.Good]
            · have h3 := skipSpace_length_le cs2
              have h4 := hpv (skipSpace cs2) (by omega)
              split
              · rename_i e he2
                rw [he2] at h4
                exact h4
              · rename_i v cs3 he2
                rw [he2] at h4
                simp only [Scan.Good] at h4
                split
                · simp [Scan.Good]
                · rename_i c cs4 hc4
                  have h5 := skipSpace_cons_length hc4
                  split_ifs
                  · have h6 := ih cs4 (by omega) (by omega)
                    split
                    · rename_i ms rest hr
                      rw [hr] at h6
                      simp only [Scan.Good] at h6 ⊢
                      omega
                    · rename_i e hr
                      rw [hr] at h6
                      exact h6
                  · simp only [Scan.Good]; omega
                  · simp [Scan.Good]

theorem scanLit_ok_length {lit cs rest : List Char} (h : scanLit lit cs = .ok rest) :
    rest.length ≤ cs.length := by
  have hs := scanLit_good lit cs
  rw [h] at hs
  exact hs

theorem scanLit_error_ne_fuel {lit cs : List Char} {e : ScanErr}
    (h : scanLit lit cs = .error e) : e ≠ .fuel := by
  have hs := scanLit_good lit cs
  rw [h] at hs
  exact hs

theorem parseValue_good : ∀ (n depth : Nat) (cs : List Char), cs.length < n →
    Scan.Good cs.length (parseValue n depth cs) := by
  intro n
  induction n with
  | zero => intro depth cs h; omega
  | succ n ih =>
    intro depth cs hn
    cases cs with
    | nil => simp [parseValue, Scan.Good]
    | cons c cs =>
      simp only [List.length_cons] at hn
      simp only [parseValue]
      split_ifs
      · simp [Scan.Good]
      · split
        · simp [Scan.Good]
        · rename_i d cs1 hd
          have h0 := skipSpace_length_le cs
          have h1 := skipSpace_cons_length hd
          split_ifs
          · simp only [Scan.Good, List.length_cons]; omega
          · have h2 := parseMembers_good (parseValue n (depth + 1)) n (ih (depth + 1)) n (d :: cs1)
              (by rw [← hd]; omega) (by rw [← hd]; omega)
            split
            · rename_i ms rest hr
              rw [hr] at h2
              simp only [Scan.Good, List.length_cons] at h2 ⊢
              omega
            · rename_i e hr
              rw [hr] at h2
              exact h2
      · simp [Scan.Good]
      · split
        · simp [Scan.Good]
        · rename_i d cs1 hd
          have h0 := skipSpace_length_le cs
          have h1 := skipSpace_cons_length hd
          split_ifs
          · simp only [Scan.Good, List.length_cons]; omega
          · have h2 := parseElems_good (parseValue n (depth + 1)) n (ih (depth + 1)) n (d :: cs1)
              (by rw [← hd]; omega) (by rw [← hd]; omega)
            split
            · rename_i vs rest hr
              rw [hr] at h2
              simp only [Scan.Good, List.length_cons] at h2 ⊢
              omega
            · rename_i e hr
              rw [hr] at h2
              exact h2
      · have hs := scanStringFrom_good cs.length none cs (Nat.le_refl _)
        simp only [scanString]
        split
        · rename_i s rest hr
          rw [hr] at hs
          simp only [Scan.Good, List.length_cons] at hs ⊢
          omega
        · rename_i e hr
          rw [hr] at hs
          exact hs
      · have hs := scanNumber_good c cs
        split
        · rename_i rest hr
          rw [hr] at hs
          simp only [restGood] at hs
          simp only [Scan.Good, List.length_cons]
          omega
        · rename_i e hr
          rw [hr] at hs
          exact hs
      all_goals
        first
        | (simp [Scan.Good]; done)
        | (split
           · rename_i rest hr
             have hs := scanLit_ok_length hr
             simp only [Scan.Good, List.length_cons]
             omega
           · rename_i e hr
             exact scanLit_error_ne_fuel hr)

/-- The recursion budget `decodeFirst` gives the scanner is never used up. -/
theorem decodeFirst_budget_suffices (body : String) :
    parseValue (body.data.length + 1) 0 (skipSpace body.data) ≠ .error .fuel := by
  have h := parseValue_good (body.data.length + 1) 0 (skipSpace body.data)
    (by have := skipSpace_length_le body.data; omega)
  intro hc
  rw [hc] at h
  exact h rfl

theorem sendRequest_status_error (r : RsnChat) (env : Env) (endpoint : String)
    (payload : Payload) (resp : Response)
    (hurl : env.newRequestErr (r.APIURL ++ endpoint) = none)
    (hresp : env.roundTrip (postRequest (r.APIURL ++ endpoint) "application/json" payload)
      = .ok resp)
    (h200 : resp.statusCode ≠ 200) :
    ∃ e : GoError,
      r.sendRequest env endpoint payload
        = ⟨none, some e, [postRequest (r.APIURL ++ endpoint) "application/json" payload]⟩ ∧
      e.errorClass = specStatusClass resp.statusCode ∧
      (resp.statusCode = 401 → e = .errorsNew
        "unauthorized: API key is invalid or you do not have access to the resource") ∧
      (resp.statusCode = 403 → e = .errorsNew "forbidden: access to the resource is denied") ∧
      (resp.statusCode = 404 →
        e = .errorsNew "not found: the requested endpoint is not available") ∧
      (resp.statusCode ≠ 401 → resp.statusCode ≠ 403 → resp.statusCode ≠ 404 →
        e = .fmtErrorf "request failed with status: %d" (.int resp.statusCode) ∧
        e.Error = "request failed with status: " ++ toString resp.statusCode) := by
  by_cases h1 : resp.statusCode = 401
  · refine ⟨_, ?_, ?_, fun _ => rfl, fun h => by omega, fun h => by omega,
      fun h => absurd h1 h⟩
    · simp [RsnChat.sendRequest, httpPost, hurl, hresp, h1]
    · simp [specStatusClass, h1, GoError.errorClass]
  by_cases h3 : resp.statusCode = 403
  · refine ⟨_, ?_, ?_, fun h => by omega, fun _ => rfl, fun h => by omega,
      fun _ h => absurd h3 h⟩
    · simp [RsnChat.sendRequest, httpPost, hurl, hresp, h3]
    · simp [specStatusClass, h3, GoError.errorClass]
  by_cases h4 : resp.statusCode = 404
  · refine ⟨_, ?_, ?_, fun h => by omega, fun h => by omega, fun _ => rfl,
      fun _ _ h => absurd h4 h⟩
    · simp [RsnChat.sendRequest, httpPost, hurl, hresp, h4]
    · simp [specStatusClass, h4, GoError.errorClass]
  · refine ⟨.fmtErrorf "request failed with status: %d" (.int resp.statusCode), ?_, ?_,
      fun h => absurd h h1, fun h => absurd h h3, fun h => absurd h h4,
      fun _ _ _ => ⟨rfl, ?_⟩⟩
    · simp [RsnChat.sendRequest, httpPost, hurl, hresp, h200, h1, h3, h4]
    · simp [specStatusClass, h1, h3, h4, GoError.errorClass]
    · simp [GoError.Error, sprintf1, FmtArg.text]
      apply String.ext; simp

theorem sendImageRequest_status_error (r : RsnChat) (env : Env) (endpoint : String)
    (payload : Payload) (resp : Response)
    (hurl : env.newRequestErr (r.APIURL ++ endpoint) = none)
    (hresp : env.roundTrip (r.imageRequest endpoint payload) = .ok resp)
    (h200 : resp.statusCode ≠ 200) :
    ∃ e : GoError,
      r.sendImageRequest env endpoint payload
        = ⟨none, some e, [r.imageRequest endpoint payload]⟩ ∧
      e.errorClass = specStatusClass resp.statusCode ∧
      (resp.statusCode = 401 → e = .errorsNew "unauthorized: API key is invalid") ∧
      (resp.statusCode = 403 → e = .errorsNew "forbidden: access to the resource is denied") ∧
      (resp.statusCode = 404 →
        e = .errorsNew "not found: the requested endpoint is not available") ∧
      (resp.statusCode ≠ 401 → resp.statusCode ≠ 403 → resp.statusCode ≠ 404 →
        e = .fmtErrorf "request failed with status: %d" (.int resp.statusCode) ∧
        e.Error = "request failed with status: " ++ toString resp.statusCode) := by
  by_cases h1 : resp.statusCode = 401
  · refine ⟨_, ?_, ?_, fun _ => rfl, fun h => by omega, fun h => by omega,
      fun h => absurd h1 h⟩
    · simp [RsnChat.sendImageRequest, hurl, hresp, h1]
    · simp [specStatusClass, h1, GoError.errorClass]
  by_cases h3 : resp.statusCode = 403
  · refine ⟨_, ?_, ?_, fun h => by omega, fun _ => rfl, fun h => by omega,
      fun _ h => absurd h3 h⟩
    · simp [RsnChat.sendImageRequest, hurl, hresp, h3]
    · simp [specStatusClass, h3, GoError.errorClass]
  by_cases h4 : resp.statusCode = 404
  · refine ⟨_, ?_, ?_, fun h => by omega, fun h => by omega, fun _ => rfl,
      fun _ _ h => absurd h4 h⟩
    · simp [RsnChat.sendImageRequest, hurl, hresp, h4]
    · simp [specStatusClass, h4, GoError.errorClass]
  · refine ⟨.fmtErrorf "request failed with status: %d" (.int resp.statusCode), ?_, ?_,
      fun h => absurd h h1, fun h => absurd h h3, fun h => absurd h h4,
      fun _ _ _ => ⟨rfl, ?_⟩⟩
    · simp [RsnChat.sendImageRequest, hurl, hresp, h200, h1, h3, h4]
    · simp [specStatusClass, h1, h3, h4, GoError.errorClass]
    · simp [GoError.Error, sprintf1, FmtArg.text]
      apply String.ext; simp

/-- Claim C2: on each dispatch path, taken alone, a response whose status is not
200 gives no result and an error: status 401 an authentication error, 403 a
permission error, 404 a not-found error, every other status the error
`request failed with status: %d` formatted with that status.  The class of the
error is a function of the status alone, so whenever the two paths receive the
same status other than 200 they return errors of the same class. -/
theorem dispatch_status_errors (r : RsnChat) (env : Env) (endpoint : String)
    (payload : Payload) :
    (∀ resp : Response,
      env.newRequestErr (r.APIURL ++ endpoint) = none →
      env.roundTrip (postRequest (r.APIURL ++ endpoint) "application/json" payload)
        = .ok resp →
      resp.statusCode ≠ 200 →
      ∃ e : GoError,
        r.sendRequest env endpoint payload
          = ⟨none, some e, [postRequest (r.APIURL ++ endpoint) "application/json" payload]⟩ ∧
        e.errorClass = specStatusClass resp.statusCode ∧
        (resp.statusCode = 401 → e.errorClass = .AuthenticationError) ∧
        (resp.statusCode = 403 → e.errorClass = .PermissionError) ∧
        (resp.statusCode = 404 → e.errorClass = .NotFoundError) ∧
        (resp.statusCode ≠ 401 → resp.statusCode ≠ 403 → resp.statusCode ≠ 404 →
          e = .fmtErrorf "request failed with status: %d" (.int resp.statusCode) ∧
          e.errorClass = .RequestFailedError resp.statusCode ∧
          e.Error = "request failed with status: " ++ toString resp.statusCode)) ∧
    (∀ resp : Response,
      env.newRequestErr (r.APIURL ++ endpoint) = none →
      env.roundTrip (r.imageRequest endpoint payload) = .ok resp →
      resp.statusCode ≠ 200 →
      ∃ e : GoError,
        r.sendImageRequest env endpoint payload
          = ⟨none, some e, [r.imageRequest endpoint payload]⟩ ∧
        e.errorClass = specStatusClass resp.statusCode ∧
        (resp.statusCode = 401 → e.errorClass = .AuthenticationError) ∧
        (resp.statusCode = 403 → e.errorClass = .PermissionError) ∧
        (resp.statusCode = 404 → e.errorClass = .NotFoundError) ∧
        (resp.statusCode ≠ 401 → resp.statusCode ≠ 403 → resp.statusCode ≠ 404 →
          e = .fmtErrorf "request failed with status: %d" (.int resp.statusCode) ∧
          e.errorClass = .RequestFailedError resp.statusCode ∧
          e.Error = "request failed with status: " ++ toString resp.statusCode)) ∧
    (∀ respT respI : Response,
      env.newRequestErr (r.APIURL ++ endpoint) = none →
      env.roundTrip (postRequest (r.APIURL ++ endpoint) "application/json" payload)
        = .ok respT →
      env.roundTrip (r.imageRequest endpoint payload) = .ok respI →
      respT.statusCode ≠ 200 → respI.statusCode = respT.statusCode →
      ∃ eT eI : GoError,
        (r.sendRequest env endpoint payload).err = some eT ∧
        (r.sendImageRequest env endpoint payload).err = some eI ∧
        eT.errorClass = eI.errorClass) := by
  refine ⟨fun resp hurl hresp h200 => ?_, fun resp hurl hresp h200 => ?_,
    fun respT respI hurl hT hI h200 hs => ?_⟩
  · obtain ⟨e, he, hc, h1, h3, h4, hd⟩ := sendRequest_status_error r env endpoint payload resp
      hurl hresp h200
    refine ⟨e, he, hc, fun h => ?_, fun h => ?_, fun h => ?_, fun a b c => ?_⟩
    · rw [h1 h]; rfl
    · rw [h3 h]; rfl
    · rw [h4 h]; rfl
    · obtain ⟨x, y⟩ := hd a b c
      exact ⟨x, by rw [hc]; simp [specStatusClass, a, b, c], y⟩
  · obtain ⟨e, he, hc, h1, h3, h4, hd⟩ := sendImageRequest_status_error r env endpoint payload
      resp hurl hresp h200
    refine ⟨e, he, hc, fun h => ?_, fun h => ?_, fun h => ?_, fun a b c => ?_⟩
    · rw [h1 h]; rfl
    · rw [h3 h]; rfl
    · rw [h4 h]; rfl
    · obtain ⟨x, y⟩ := hd a b c
      exact ⟨x, by rw [hc]; simp [specStatusClass, a, b, c], y⟩
  · obtain ⟨eT, heT, hcT, -⟩ := sendRequest_status_error r env endpoint payload respT
      hurl hT h200
    obtain ⟨eI, heI, hcI, -⟩ := sendImageRequest_status_error r env endpoint payload respI
      hurl hI (by rw [hs]; exact h200)
    exact ⟨eT, eI, by rw [heT], by rw [heI], by rw [hcT, hcI, hs]⟩

/-- Claim C2 on a server that answers 401 to a request without an Authorization
header and 200 to a request with one, where the text path gets the 401; and on a
stub server that answers 500, for the image path. -/
theorem dispatch_status_errors_witness :
    (∃ e : GoError,
      sampleClient.sendRequest authServer "/gpt" [("prompt", "hi")]
        = ⟨none, some e, [postRequest ("http://h" ++ "/gpt") "application/json"
            [("prompt", "hi")]]⟩ ∧
      e.errorClass = .AuthenticationError) ∧
    (∃ e : GoError,
      sampleClient.sendImageRequest (stubServer ⟨500, "", none⟩) "/icon" [("prompt", "hi")]
        = ⟨none, some e, [sampleClient.imageRequest "/icon" [("prompt", "hi")]]⟩ ∧
      e = .fmtErrorf "request failed with status: %d" (.int 500) ∧
      e.errorClass = .RequestFailedError 500 ∧
      e.Error = "request failed with status: 500") :=
  ⟨by
    obtain ⟨e, he, -, h1, -⟩ :=
      (dispatch_status_errors sampleClient authServer "/gpt"
        [("prompt", "hi")]).1 ⟨401, "", none⟩ rfl rfl (by decide)
    exact ⟨e, he, h1 rfl⟩,
   by
    obtain ⟨e, he, -, -, -, -, hd⟩ :=
      (dispatch_status_errors sampleClient (stubServer ⟨500, "", none⟩) "/icon"
        [("prompt", "hi")]).2.1 ⟨500, "", none⟩ rfl rfl (by decide)
    obtain ⟨a, b, c⟩ := hd (by decide) (by decide) (by decide)
    exact ⟨e, he, a, b, by rw [c]; decide⟩⟩

/-- Claim C6 as amended: every method maps `prompt` to the caller's prompt; `Prodia`,
`Kandinsky`, `Absolutebeauty` and `Sdxl` also map `negative_prompt` to the
negative prompt; `Prodia` also maps `model` to the model; the text methods,
`Dalle` and `Icon` send no key but `prompt`.  The payload is read off the one
request the method sends when `http.NewRequest` accepts the URL of its own
endpoint. -/
theorem endpoint_payloads (r : RsnChat) (env : Env) (prompt negativePrompt model : String) :
    (∀ m : TextMethod, env.newRequestErr (r.APIURL ++ specTextEndpoint m) = none →
      ∃ q, (m.call r env prompt).sent = [q] ∧
        q.jsonBody.get? "prompt" = some prompt ∧ q.jsonBody.map Prod.fst = ["prompt"]) ∧
    (∀ m : ImageMethod, env.newRequestErr (r.APIURL ++ specImageEndpoint m) = none →
      ∃ q, (m.call r env prompt negativePrompt model).sent = [q] ∧
        q.jsonBody.get? "prompt" = some prompt ∧
        (m = .Prodia →
          q.jsonBody.get? "negative_prompt" = some negativePrompt ∧
          q.jsonBody.get? "model" = some model ∧
          q.jsonBody.map Prod.fst = ["prompt", "negative_prompt", "model"]) ∧
        (m = .Kandinsky ∨ m = .Absolutebeauty ∨ m = .Sdxl →
          q.jsonBody.get? "negative_prompt" = some negativePrompt ∧
          q.jsonBody.map Prod.fst = ["prompt", "negative_prompt"]) ∧
        (m = .Dalle ∨ m = .Icon → q.jsonBody.map Prod.fst = ["prompt"])) := by
  constructor
  · intro m hurl
    refine ⟨postRequest (r.APIURL ++ specTextEndpoint m) "application/json" [("prompt", prompt)],
      ?_, by simp [postRequest, Payload.get?], by simp [postRequest]⟩
    have h : m.call r env prompt = r.sendRequest env (specTextEndpoint m) [("prompt", prompt)] := by
      cases m <;> rfl
    rw [h, sendRequest_sent, if_pos hurl]
  · intro m hurl
    cases m
    all_goals
      simp only [specImageEndpoint] at hurl
      simp only [ImageMethod.call, RsnChat.Prodia, RsnChat.Kandinsky, RsnChat.Absolutebeauty,
        RsnChat.Sdxl, RsnChat.Dalle, RsnChat.Icon, sendImageRequest_sent, if_pos hurl]
      refine ⟨_, rfl, ?_⟩
      simp [RsnChat.imageRequest, Payload.get?]

/-- Claim C6 as amended, on a server that refuses the URL `:` and no other:
`Prodia` and `Gpt` send their payloads all the same. -/
theorem endpoint_payloads_witness :
    pickyServer.newRequestErr ":" ≠ none ∧
    (∃ q, (TextMethod.Gpt.call sampleClient pickyServer "a cat").sent = [q] ∧
      q.jsonBody.get? "prompt" = some "a cat" ∧ q.jsonBody.map Prod.fst = ["prompt"]) ∧
    (∃ q, (ImageMethod.Prodia.call sampleClient pickyServer "a cat" "blurry" "m").sent = [q] ∧
      q.jsonBody.get? "prompt" = some "a cat" ∧
      q.jsonBody.get? "negative_prompt" = some "blurry" ∧
      q.jsonBody.get? "model" = some "m" ∧
      q.jsonBody.map Prod.fst = ["prompt", "negative_prompt", "model"]) :=
  ⟨by decide,
   (endpoint_payloads sampleClient pickyServer "a cat" "blurry" "m").1 .Gpt (by decide),
   by
    obtain ⟨q, hq, hp, hP, -⟩ :=
      (endpoint_payloads sampleClient pickyServer "a cat" "blurry" "m").2 .Prodia (by decide)
    exact ⟨q, hq, hp, hP rfl⟩⟩

theorem char_eq_ofNat {c : Char} {n : Nat} (h : c.toNat = n) : c = Char.ofNat n := by
  rw [← h, Char.ofNat_toNat]

theorem char_le_iff (a b : Char) : a ≤ b ↔ a.toNat ≤ b.toNat := by
  rw [Char.le_def]
  exact Iff.rfl

theorem isSpace_of_rfc {c : Char}
    (h : c.toNat = 0x20 ∨ c.toNat = 0x09 ∨ c.toNat = 0x0A ∨ c.toNat = 0x0D) :
    isSpace c = true := by
  rcases h with h | h | h | h <;> rw [char_eq_ofNat h] <;> decide

theorem skipSpace_rfcWs (w cs : List Char) (hw : RfcWs w) :
    skipSpace (w ++ cs) = skipSpace cs := by
  induction w with
  | nil => rfl
  | cons c w ih =>
    have hc := isSpace_of_rfc (hw c (by simp))
    simp only [List.cons_append, skipSpace, hc, if_true]
    exact ih (fun d hd => hw d (by simp [hd]))

theorem hexVal_of_rfc {c : Char} (h : RfcHexDigit c) : hexVal c = some (rfcHexValue c) := by
  unfold hexVal rfcHexValue
  simp only [char_le_iff]
  have e0 : '0'.toNat = 48 := by decide
  have e9 : '9'.toNat = 57 := by decide
  have ea : 'a'.toNat = 97 := by decide
  have ef : 'f'.toNat = 102 := by decide
  have eA : 'A'.toNat = 65 := by decide
  have eF : 'F'.toNat = 70 := by decide
  rw [e0, e9, ea, ef, eA, eF]
  rcases h with ⟨h1, h2⟩ | ⟨h1, h2⟩ | ⟨h1, h2⟩
  · rw [if_pos ⟨h1, h2⟩, if_pos h2]
  · rw [if_neg (by omega), if_neg (by omega), if_pos ⟨h1, h2⟩, if_neg (by omega), if_pos h2]
    congr 1; omega
  · rw [if_neg (by omega), if_pos ⟨h1, h2⟩, if_neg (by omega), if_neg (by omega)]
    congr 1; omega

theorem hex4_of_rfc {a b c d : Char} (ha : RfcHexDigit a) (hb : RfcHexDigit b)
    (hc : RfcHexDigit c) (hd : RfcHexDigit d) :
    hex4 a b c d = some (rfcHex4Value a b c d) := by
  simp only [hex4, hexVal_of_rfc ha, hexVal_of_rfc hb, hexVal_of_rfc hc, hexVal_of_rfc hd,
    rfcHex4Value]
  congr 1; omega

theorem escapeChar_of_rfc {e x : Char} (h : (e, x) ∈ rfcEscapes) :
    e ≠ 'u' ∧ escapeChar e = some x := by
  simp only [rfcEscapes, List.mem_cons, Prod.mk.injEq, List.mem_singleton, List.not_mem_nil,
    or_false] at h
  rcases h with ⟨rfl, rfl⟩ | ⟨rfl, rfl⟩ | ⟨rfl, rfl⟩ | ⟨rfl, rfl⟩ | ⟨rfl, rfl⟩ | ⟨rfl, rfl⟩ |
    ⟨rfl, rfl⟩ | ⟨rfl, rfl⟩ <;> exact ⟨by decide, by decide⟩

theorem scanStringFrom_high (p : Option Nat) (h1 h2 h3 h4 : Char) (n : Nat) (cs : List Char)
    (hx : hex4 h1 h2 h3 h4 = some n) (hn : 0xD800 ≤ n ∧ n < 0xDC00) :
    scanStringFrom p ('\\' :: 'u' :: h1 :: h2 :: h3 :: h4 :: cs)
      = pushPending p (scanStringFrom (some n) cs) := by
  rw [scanStringFrom.eq_def]
  have a : ¬ (56320 ≤ n ∧ n < 57344) := by omega
  have b : 55296 ≤ n ∧ n < 56320 := by omega
  simp [hx, a, b]

theorem scanStringFrom_low (hi : Nat) (h1 h2 h3 h4 : Char) (n : Nat) (cs : List Char)
    (hx : hex4 h1 h2 h3 h4 = some n) (hn : 0xDC00 ≤ n ∧ n < 0xE000) :
    scanStringFrom (some hi) ('\\' :: 'u' :: h1 :: h2 :: h3 :: h4 :: cs)
      = pushChar (Char.ofNat ((hi - 0xD800) * 1024 + (n - 0xDC00) + 0x10000))
          (scanStringFrom none cs) := by
  rw [scanStringFrom.eq_def]
  have a : 56320 ≤ n ∧ n < 57344 := by omega
  simp [hx, a]

theorem scanStringFrom_rfcString {l s : List Char} (h : RfcString l s) (rest : List Char) :
    scanStringFrom none (l ++ '"' :: rest) = .ok (s, rest) := by
  induction h with
  | nil => simp [scanStringFrom_quote, flushPending]
  | unescaped c l s h1 h2 h3 _ ih =>
    simp [scanStringFrom_plain none c _ h2 h3 (by omega), ih, pushChar, pushPending,
      flushPending]
  | escape e x l s he _ ih =>
    obtain ⟨hu, hx⟩ := escapeChar_of_rfc he
    simp [scanStringFrom_escape none e x _ hu hx, ih, pushChar, pushPending, flushPending]
  | unicode h1 h2 h3 h4 l s a b c d hn _ ih =>
    simp [scanStringFrom_unicode none _ _ _ _ _ _ (hex4_of_rfc a b c d) hn, ih, pushChar,
      pushPending, flushPending]
  | surrogates h1 h2 h3 h4 g1 g2 g3 g4 l s a b c d a' b' c' d' hhi hlo _ ih =>
    have e : (rfcHex4Value h1 h2 h3 h4 - 0xD800) * 1024 + (rfcHex4Value g1 g2 g3 g4 - 0xDC00)
        + 0x10000
        = 0x10000 + (rfcHex4Value h1 h2 h3 h4 - 0xD800) * 0x400
          + (rfcHex4Value g1 g2 g3 g4 - 0xDC00) := by omega
    simp only [List.cons_append]
    rw [scanStringFrom_high none _ _ _ _ _ _ (hex4_of_rfc a b c d) hhi,
      scanStringFrom_low _ _ _ _ _ _ _ (hex4_of_rfc a' b' c' d') hlo, ih, e]
    rfl

theorem skipSpace_of_not_space {c : Char} (cs : List Char) (h : isSpace c = false) :
    skipSpace (c :: cs) = c :: cs := by
  simp [skipSpace, h]

theorem parseMembers_stringMember (n f depth : Nat) (m rest : List Char) (k v : String)
    (c : Char) (hc : isSpace c = false) (hm : RfcStringMember m k v) :
    parseMembers (parseValue (f + 1) depth) (n + 1) (m ++ c :: rest)
      = if c = ',' then
          match parseMembers (parseValue (f + 1) depth) n rest with
          | .ok (ms, r) => .ok ((k, .string v) :: ms, r)
          | .error e => .error e
        else if c = '}' then .ok ([(k, .string v)], rest)
        else .error .invalid := by
  obtain ⟨w1, a, w2, w3, b, w4, hw1, ha, hw2, hw3, hb, hw4, rfl⟩ := hm
  have q : isSpace '"' = false := by decide
  have col : isSpace ':' = false := by decide
  simp only [parseMembers, List.append_assoc, List.cons_append, skipSpace_rfcWs _ _ hw1,
    skipSpace_rfcWs _ _ hw2, skipSpace_rfcWs _ _ hw3, skipSpace_rfcWs _ _ hw4,
    skipSpace_of_not_space _ q, skipSpace_of_not_space _ col, skipSpace_of_not_space _ hc,
    scanString, scanStringFrom_rfcString ha, scanStringFrom_rfcString hb, parseValue]
  simp only [Char.reduceEq, if_false, if_true, skipSpace_rfcWs _ _ hw4,
    skipSpace_of_not_space _ hc, ne_eq, not_true_eq_false]

theorem stringMember_skipSpace {m : List Char} {k v : String} (hm : RfcStringMember m k v) :
    ∃ t : List Char, RfcStringMember ('"' :: t) k v ∧
      ∀ rest, skipSpace (m ++ rest) = '"' :: (t ++ rest) := by
  obtain ⟨w1, a, w2, w3, b, w4, hw1, ha, hw2, hw3, hb, hw4, rfl⟩ := hm
  refine ⟨a ++ '"' :: (w2 ++ ':' :: (w3 ++ '"' :: (b ++ '"' :: w4))),
    ⟨[], a, w2, w3, b, w4, by simp [RfcWs], ha, hw2, hw3, hb, hw4, rfl⟩, fun rest => ?_⟩
  rw [List.append_assoc, skipSpace_rfcWs _ _ hw1]
  exact skipSpace_of_not_space _ (by decide)

theorem parseValue_object2 (n : Nat) (m1 m2 rest : List Char) (k1 v1 k2 v2 : String)
    (hm1 : RfcStringMember m1 k1 v1) (hm2 : RfcStringMember m2 k2 v2) :
    parseValue (n + 3) 0 ('{' :: (m1 ++ ',' :: (m2 ++ '}' :: rest)))
      = .ok (.object [(k1, .string v1), (k2, .string v2)], rest) := by
  obtain ⟨t, ht, hskip⟩ := stringMember_skipSpace hm1
  have h2 := parseMembers_stringMember n (n + 1) 1 m2 rest k2 v2 '}' (by decide) hm2
  have h1 := parseMembers_stringMember (n + 1) (n + 1) 1 ('"' :: t) (m2 ++ '}' :: rest) k1 v1 ','
    (by decide) ht
  simp only [Char.reduceEq, if_false, if_true] at h1 h2
  rw [h2] at h1
  simp only [List.cons_append] at h1
  simp only [parseValue, hskip, maxNestingDepth, h1]
  simp

theorem decodeFirst_object2 (body : String) (readErr : Option GoError)
    (k1 v1 k2 v2 : String) (h : RfcObject2 body.data k1 v1 k2 v2) :
    decodeFirst body readErr = .ok (.object [(k1, .string v1), (k2, .string v2)]) := by
  obtain ⟨w0, m1, m2, w9, hw0, hm1, hm2, hw9, hb⟩ := h
  unfold decodeFirst
  rw [hb, skipSpace_rfcWs _ _ hw0, skipSpace_of_not_space _ (by decide)]
  obtain ⟨n, hn⟩ : ∃ n, (w0 ++ '{' :: (m1 ++ ',' :: (m2 ++ '}' :: w9))).length + 1 = n + 3 :=
    ⟨w0.length + m1.length + (m2 ++ '}' :: w9).length, by
      simp only [List.length_append, List.length_cons]; omega⟩
  rw [hn, parseValue_object2 n m1 m2 w9 k1 v1 k2 v2 hm1 hm2]
  cases readErr <;> simp [Json.isComposite]

theorem decodeTextResult_of_isTextBody (resp : Response) (s m : String)
    (h : IsTextBody resp.body s m) :
    decodeTextResult resp = .ok { Success := s, Message := m } := by
  rcases h with h | h
  · simp [decodeTextResult, decodeFirst_object2 _ resp.readErr _ _ _ _ h, unmarshalStruct,
      setTextMember, findField, storeString]
  · simp [decodeTextResult, decodeFirst_object2 _ resp.readErr _ _ _ _ h, unmarshalStruct,
      setTextMember, findField, storeString]

theorem decodeImage_of_isImageBody (resp : Response) (s i : String)
    (h : IsImageBody resp.body s i) :
    decodeImage resp = .ok { Success := s, Image := i } := by
  rcases h with h | h
  · simp [decodeImage, decodeFirst_object2 _ resp.readErr _ _ _ _ h, unmarshalStruct,
      setImageMember, findField, storeString]
  · simp [decodeImage, decodeFirst_object2 _ resp.readErr _ _ _ _ h, unmarshalStruct,
      setImageMember, findField, storeString]

/-- Claim C4: a text method whose request is answered with status 200 and a JSON
text that is the object `{"success": s, "message": msg}` returns no error and a
`TextResult` with those two fields, and an image method whose request is
answered with status 200 and a JSON text that is the object
`{"success": s, "image": img}` returns no error and an `Image` with those two
fields.  This holds for all strings and for every way RFC 8259 allows the object
to be written: white space around the tokens, either order of the two members,
and any mix of unescaped characters, two-character escapes and `\u` escapes in
the four string literals. -/
theorem ok_body_round_trip (r : RsnChat) (env : Env) :
    (∀ (m : TextMethod) (prompt s msg : String) (resp : Response),
      env.newRequestErr (r.APIURL ++ specTextEndpoint m) = none →
      env.roundTrip (postRequest (r.APIURL ++ specTextEndpoint m) "application/json"
        [("prompt", prompt)]) = .ok resp →
      resp.statusCode = 200 →
      IsTextBody resp.body s msg →
      m.call r env prompt
        = ⟨some { Success := s, Message := msg }, none,
            [postRequest (r.APIURL ++ specTextEndpoint m) "application/json"
              [("prompt", prompt)]]⟩) ∧
    (∀ (m : ImageMethod) (prompt negativePrompt model s img : String) (resp : Response),
      env.newRequestErr (r.APIURL ++ specImageEndpoint m) = none →
      env.roundTrip (r.imageRequest (specImageEndpoint m)
        (imagePayload m prompt negativePrompt model)) = .ok resp →
      resp.statusCode = 200 →
      IsImageBody resp.body s img →
      m.call r env prompt negativePrompt model
        = ⟨some { Success := s, Image := img }, none,
            [r.imageRequest (specImageEndpoint m)
              (imagePayload m prompt negativePrompt model)]⟩) := by
  constructor
  · intro m prompt s msg resp hurl hresp hs hb
    have h : m.call r env prompt = r.sendRequest env (specTextEndpoint m) [("prompt", prompt)] := by
      cases m <;> rfl
    rw [h]
    simp [RsnChat.sendRequest, httpPost, hurl, hresp, hs, decodeTextResult_of_isTextBody _ _ _ hb]
  · intro m prompt negativePrompt model s img resp hurl hresp hs hb
    have h : m.call r env prompt negativePrompt model
        = r.sendImageRequest env (specImageEndpoint m)
            (imagePayload m prompt negativePrompt model) := by
      cases m <;> rfl
    rw [h]
    simp [RsnChat.sendImageRequest, hurl, hresp, hs, decodeImage_of_isImageBody _ _ _ hb]

theorem rfcString_unescaped (l : List Char)
    (h : ∀ c ∈ l, 0x20 ≤ c.toNat ∧ c ≠ '"' ∧ c ≠ '\\') : RfcString l l := by
  induction l with
  | nil => exact .nil
  | cons c l ih =>
    obtain ⟨h1, h2, h3⟩ := h c (by simp)
    exact .unescaped c l l h1 h2 h3 (ih (fun d hd => h d (by simp [hd])))

/-- Claim C4 on the stub server of the specification, whose body is
`{"success":"true","message":"hi"}`, for `Gpt`; and for `Icon` on a server that
checks the Authorization header and answers with the two members in the other
order, white space around the tokens, and the image written with a two-character
escape, a `\u` escape and a line feed escape. -/
theorem ok_body_round_trip_witness :
    TextMethod.Gpt.call sampleClient
        (stubServer ⟨200, "\x7b\"success\":\"true\",\"message\":\"hi\"\x7d", none⟩) "hello"
      = ⟨some { Success := "true", Message := "hi" }, none,
          [postRequest "http://h/gpt" "application/json" [("prompt", "hello")]]⟩ ∧
    ImageMethod.Icon.call sampleClient
        (authServerWith "\x7b \"image\" : \"a\\/\\u0041\\n\" ,\n \"success\":\"true\" \x7d\n")
        "hello" "" ""
      = ⟨some { Success := "true", Image := "a/A\n" }, none,
          [sampleClient.imageRequest "/icon" [("prompt", "hello")]]⟩ :=
  ⟨(ok_body_round_trip sampleClient
      (stubServer ⟨200, "\x7b\"success\":\"true\",\"message\":\"hi\"\x7d", none⟩)).1
      .Gpt "hello" "true" "hi" ⟨200, "\x7b\"success\":\"true\",\"message\":\"hi\"\x7d", none⟩
      rfl rfl rfl
      (Or.inl ⟨[], "\"success\":\"true\"".data, "\"message\":\"hi\"".data, [],
        by decide,
        ⟨[], "success".data, [], [], "true".data, [], by decide,
          rfcString_unescaped _ (by decide), by decide, by decide,
          rfcString_unescaped _ (by decide), by decide, rfl⟩,
        ⟨[], "message".data, [], [], "hi".data, [], by decide,
          rfcString_unescaped _ (by decide), by decide, by decide,
          rfcString_unescaped _ (by decide), by decide, rfl⟩,
        by decide, rfl⟩),
   (ok_body_round_trip sampleClient
      (authServerWith "\x7b \"image\" : \"a\\/\\u0041\\n\" ,\n \"success\":\"true\" \x7d\n")).2
      .Icon "hello" "" "" "true" "a/A\n"
      ⟨200, "\x7b \"image\" : \"a\\/\\u0041\\n\" ,\n \"success\":\"true\" \x7d\n", none⟩
      rfl rfl rfl
      (Or.inr ⟨[], " \"image\" : \"a\\/\\u0041\\n\" ".data, "\n \"success\":\"true\" ".data,
        ['\n'],
        by decide,
        ⟨[' '], "image".data, [' '], [' '], "a\\/\\u0041\\n".data, [' '], by decide,
          rfcString_unescaped _ (by decide), by decide, by decide,
          .unescaped 'a' _ _ (by decide) (by decide) (by decide)
            (.escape '/' '/' _ _ (by decide)
              (.unicode '0' '0' '4' '1' _ _ (by decide) (by decide) (by decide) (by decide)
                (by decide)
                (.escape 'n' '\n' _ _ (by decide) .nil))),
          by decide, rfl⟩,
        ⟨['\n', ' '], "success".data, [], [], "true".data, [' '], by decide,
          rfcString_unescaped _ (by decide), by decide, by decide,
          rfcString_unescaped _ (by decide), by decide, rfl⟩,
        by decide, rfl⟩)⟩

theorem rfc_of_isSpace {c : Char} (h : isSpace c = true) :
    c.toNat = 0x20 ∨ c.toNat = 0x09 ∨ c.toNat = 0x0A ∨ c.toNat = 0x0D := by
  simp only [isSpace, Bool.or_eq_true, decide_eq_true_eq] at h
  rcases h with ((h | h) | h) | h <;> subst h <;> decide

theorem skipSpace_decomp (cs : List Char) : ∃ w, RfcWs w ∧ cs = w ++ skipSpace cs := by
  induction cs with
  | nil => exact ⟨[], by simp [RfcWs], rfl⟩
  | cons c cs ih =>
    simp only [skipSpace]
    split_ifs with h
    · obtain ⟨w, hw, hcs⟩ := ih
      refine ⟨c :: w, ?_, by rw [List.cons_append, ← hcs]⟩
      intro d hd
      rcases List.mem_cons.mp hd with rfl | hd
      · exact rfc_of_isSpace h
      · exact hw d hd
    · exact ⟨[], by simp [RfcWs], rfl⟩

theorem rfcHexDigit_of_hexVal {c : Char} {v : Nat} (h : hexVal c = some v) : RfcHexDigit c := by
  unfold hexVal at h
  simp only [char_le_iff] at h
  have e0 : '0'.toNat = 48 := by decide
  have e9 : '9'.toNat = 57 := by decide
  have ea : 'a'.toNat = 97 := by decide
  have ef : 'f'.toNat = 102 := by decide
  have eA : 'A'.toNat = 65 := by decide
  have eF : 'F'.toNat = 70 := by decide
  rw [e0, e9, ea, ef, eA, eF] at h
  unfold RfcHexDigit RfcDigit
  split_ifs at h with h1 h2 h3
  · exact Or.inl h1
  · exact Or.inr (Or.inr h2)
  · exact Or.inr (Or.inl h3)

theorem rfcHexDigits_of_hex4 {a b c d : Char} {n : Nat} (h : hex4 a b c d = some n) :
    RfcHexDigit a ∧ RfcHexDigit b ∧ RfcHexDigit c ∧ RfcHexDigit d := by
  unfold hex4 at h
  split at h
  · rename_i x y z w ha hb hc hd
    exact ⟨rfcHexDigit_of_hexVal ha, rfcHexDigit_of_hexVal hb, rfcHexDigit_of_hexVal hc,
      rfcHexDigit_of_hexVal hd⟩
  · simp at h

theorem rfcEscape_of_escapeChar {e x : Char} (h : escapeChar e = some x) :
    (e, x) ∈ rfcEscapes := by
  unfold escapeChar at h
  split_ifs at h <;> simp only [Option.some.injEq] at h <;> subst_vars <;> decide

theorem pushChar_ok {c : Char} {r : Scan (List Char)} {s rest : List Char}
    (h : pushChar c r = .ok (s, rest)) : ∃ s', r = .ok (s', rest) := by
  cases r with
  | error e => simp [pushChar] at h
  | ok x =>
    obtain ⟨t, u⟩ := x
    simp only [pushChar, Except.ok.injEq, Prod.mk.injEq] at h
    exact ⟨t, by rw [h.2]⟩

theorem pushPending_ok {p : Option Nat} {r : Scan (List Char)} {s rest : List Char}
    (h : pushPending p r = .ok (s, rest)) : ∃ s', r = .ok (s', rest) := by
  cases r with
  | error e => simp [pushPending] at h
  | ok x =>
    obtain ⟨t, u⟩ := x
    simp only [pushPending, Except.ok.injEq, Prod.mk.injEq] at h
    exact ⟨t, by rw [h.2]⟩

theorem scanStringFrom_sound : ∀ (n : Nat) (p : Option Nat) (cs s rest : List Char),
    cs.length ≤ n → scanStringFrom p cs = .ok (s, rest) →
    ∃ l, RfcChars l ∧ cs = l ++ '"' :: rest := by
  intro n
  induction n with
  | zero =>
    intro p cs s rest h hs
    have : cs = [] := List.length_eq_zero.mp (by omega)
    subst this
    rw [scanStringFrom.eq_def] at hs
    simp at hs
  | succ n ih =>
    intro p cs s rest hlen hs
    rw [scanStringFrom.eq_def] at hs
    split at hs
    · simp at hs
    · rename_i pending c cs
      simp only [List.length_cons] at hlen
      split_ifs at hs with hq hb hctl
      · simp only [Except.ok.injEq, Prod.mk.injEq] at hs
        exact ⟨[], .nil, by rw [hq, hs.2]; rfl⟩
      · split at hs
        · simp at hs
        · rename_i e cs1
          simp only [List.length_cons] at hlen
          split_ifs at hs with hu
          · split at hs
            · rename_i h1 h2 h3 h4 cs2
              simp only [List.length_cons] at hlen
              have rec : ∀ q s', scanStringFrom q cs2 = .ok (s', rest) →
                  ∃ l, RfcChars l ∧
                    c :: e :: h1 :: h2 :: h3 :: h4 :: cs2 = l ++ '"' :: rest := by
                intro q s' hq'
                obtain ⟨l, hl, hcs⟩ := ih q cs2 s' rest (by omega) hq'
                revert hs
                split
                · intro hs; simp at hs
                · rename_i v hv
                  intro _
                  obtain ⟨a, b, c', d⟩ := rfcHexDigits_of_hex4 hv
                  exact ⟨'\\' :: 'u' :: h1 :: h2 :: h3 :: h4 :: l,
                    .unicode h1 h2 h3 h4 l a b c' d hl, by rw [hb, hu, hcs]; rfl⟩
              split at hs
              · simp at hs
              · split_ifs at hs
                · split at hs
                  · obtain ⟨s', hs'⟩ := pushChar_ok hs
                    exact rec _ _ hs'
                  · obtain ⟨s', hs'⟩ := pushChar_ok hs
                    exact rec _ _ hs'
                · obtain ⟨s', hs'⟩ := pushPending_ok hs
                  exact rec _ _ hs'
                · obtain ⟨s1, hs1⟩ := pushPending_ok hs
                  obtain ⟨s', hs'⟩ := pushChar_ok hs1
                  exact rec _ _ hs'
            · split_ifs at hs
          · split at hs
            · rename_i x hx
              obtain ⟨s1, hs1⟩ := pushPending_ok hs
              obtain ⟨s', hs'⟩ := pushChar_ok hs1
              obtain ⟨l, hl, hcs⟩ := ih none cs1 s' rest (by omega) hs'
              exact ⟨'\\' :: e :: l, .escape e x l (rfcEscape_of_escapeChar hx) hl,
                by rw [hb, hcs]; rfl⟩
            · simp at hs
      · obtain ⟨s1, hs1⟩ := pushPending_ok hs
        obtain ⟨s', hs'⟩ := pushChar_ok hs1
        obtain ⟨l, hl, hcs⟩ := ih none cs s' rest (by omega) hs'
        exact ⟨c :: l, .unescaped c l (by omega) hq hb hl, by rw [hcs]; rfl⟩

theorem rfcDigit_of_isDigit {c : Char} (h : c.isDigit = true) : RfcDigit c := by
  simp only [Char.isDigit, Bool.and_eq_true, decide_eq_true_eq] at h
  exact ⟨h.1, h.2⟩

theorem takeWhile_isDigit_rfc (cs : List Char) :
    ∀ c ∈ cs.takeWhile Char.isDigit, RfcDigit c := by
  intro c hc
  exact rfcDigit_of_isDigit (List.mem_takeWhile_imp hc)

theorem scanDigits1_sound {cs rest : List Char} (h : scanDigits1 cs = .ok rest) :
    ∃ ds, RfcDigits ds ∧ cs = ds ++ rest := by
  cases cs with
  | nil => simp [scanDigits1] at h
  | cons c cs =>
    simp only [scanDigits1] at h
    split_ifs at h with hc
    simp only [Except.ok.injEq] at h
    refine ⟨c :: cs.takeWhile Char.isDigit, ⟨by simp, ?_⟩, ?_⟩
    · intro d hd
      rcases List.mem_cons.mp hd with rfl | hd
      · exact rfcDigit_of_isDigit hc
      · exact takeWhile_isDigit_rfc cs d hd
    · rw [← h, List.cons_append, List.takeWhile_append_dropWhile]

theorem scanExp_sound {cs rest : List Char} (h : scanExp cs = .ok rest) :
    ∃ sign ds, (sign = [] ∨ sign = ['+'] ∨ sign = ['-']) ∧ RfcDigits ds ∧
      cs = sign ++ (ds ++ rest) := by
  cases cs with
  | nil => simp [scanExp] at h
  | cons c cs =>
    simp only [scanExp] at h
    split_ifs at h with hc
    · obtain ⟨ds, hds, hcs⟩ := scanDigits1_sound h
      rcases hc with rfl | rfl
      · exact ⟨['+'], ds, Or.inr (Or.inl rfl), hds, by rw [hcs]; rfl⟩
      · exact ⟨['-'], ds, Or.inr (Or.inr rfl), hds, by rw [hcs]; rfl⟩
    · obtain ⟨ds, hds, hcs⟩ := scanDigits1_sound h
      exact ⟨[], ds, Or.inl rfl, hds, by rw [hcs]; rfl⟩

theorem scanFracExp_sound {cs rest : List Char} (h : scanFracExp cs = .ok rest) :
    ∃ frac exp : List Char,
      (frac = [] ∨ ∃ ds, RfcDigits ds ∧ frac = '.' :: ds) ∧
      (exp = [] ∨ ∃ e sign ds, (e = 'e' ∨ e = 'E') ∧
        (sign = [] ∨ sign = ['+'] ∨ sign = ['-']) ∧ RfcDigits ds ∧ exp = e :: (sign ++ ds)) ∧
      cs = frac ++ (exp ++ rest) := by
  cases cs with
  | nil =>
    simp only [scanFracExp, Except.ok.injEq] at h
    exact ⟨[], [], Or.inl rfl, Or.inl rfl, by rw [← h]; rfl⟩
  | cons c cs =>
    simp only [scanFracExp] at h
    split_ifs at h with hdot he
    · split at h
      · simp at h
      · rename_i hd
        simp only [Except.ok.injEq] at h
        obtain ⟨ds, hds, hcs⟩ := scanDigits1_sound hd
        refine ⟨'.' :: ds, [], Or.inr ⟨ds, hds, rfl⟩, Or.inl rfl, ?_⟩
        rw [hdot, hcs, ← h]; rfl
      · rename_i e r1 hd
        obtain ⟨ds, hds, hcs⟩ := scanDigits1_sound hd
        split_ifs at h with hee
        · obtain ⟨sign, ds2, hsign, hds2, hr⟩ := scanExp_sound h
          refine ⟨'.' :: ds, e :: (sign ++ ds2), Or.inr ⟨ds, hds, rfl⟩,
            Or.inr ⟨e, sign, ds2, hee, hsign, hds2, rfl⟩, ?_⟩
          rw [hdot, hcs, hr]; simp
        · simp only [Except.ok.injEq] at h
          refine ⟨'.' :: ds, [], Or.inr ⟨ds, hds, rfl⟩, Or.inl rfl, ?_⟩
          rw [hdot, hcs, ← h]; rfl
    · obtain ⟨sign, ds2, hsign, hds2, hr⟩ := scanExp_sound h
      refine ⟨[], c :: (sign ++ ds2), Or.inl rfl,
        Or.inr ⟨c, sign, ds2, he, hsign, hds2, rfl⟩, ?_⟩
      rw [hr]; simp
    · simp only [Except.ok.injEq] at h
      exact ⟨[], [], Or.inl rfl, Or.inl rfl, by rw [← h]; rfl⟩

theorem scanInt_sound {cs rest : List Char} (h : scanInt cs = .ok rest) :
    ∃ int frac exp : List Char,
      (int = ['0'] ∨ (RfcDigits int ∧ int.head? ≠ some '0')) ∧
      (frac = [] ∨ ∃ ds, RfcDigits ds ∧ frac = '.' :: ds) ∧
      (exp = [] ∨ ∃ e sign ds, (e = 'e' ∨ e = 'E') ∧
        (sign = [] ∨ sign = ['+'] ∨ sign = ['-']) ∧ RfcDigits ds ∧ exp = e :: (sign ++ ds)) ∧
      cs = int ++ (frac ++ (exp ++ rest)) := by
  cases cs with
  | nil => simp [scanInt] at h
  | cons c cs =>
    simp only [scanInt] at h
    split_ifs at h with h0 hd
    · obtain ⟨frac, exp, hf, he, hcs⟩ := scanFracExp_sound h
      exact ⟨['0'], frac, exp, Or.inl rfl, hf, he, by rw [h0, hcs]; rfl⟩
    · obtain ⟨frac, exp, hf, he, hcs⟩ := scanFracExp_sound h
      refine ⟨c :: cs.takeWhile Char.isDigit, frac, exp, Or.inr ⟨⟨by simp, ?_⟩, ?_⟩, hf, he, ?_⟩
      · intro d hd'
        rcases List.mem_cons.mp hd' with rfl | hd'
        · exact rfcDigit_of_isDigit hd
        · exact takeWhile_isDigit_rfc cs d hd'
      · simpa using h0
      · rw [List.cons_append, ← hcs, List.takeWhile_append_dropWhile]

theorem scanNumber_sound {cs rest : List Char} (h : scanNumber cs = .ok rest) :
    ∃ pre, RfcNumber pre ∧ cs = pre ++ rest := by
  cases cs with
  | nil => simp [scanNumber] at h
  | cons c cs =>
    simp only [scanNumber] at h
    split_ifs at h with hm
    · obtain ⟨int, frac, exp, hi, hf, he, hcs⟩ := scanInt_sound h
      refine ⟨['-'] ++ (int ++ (frac ++ exp)),
        ⟨['-'], int, frac, exp, rfl, Or.inr rfl, hi, hf, he⟩, ?_⟩
      rw [hm, hcs]; simp
    · obtain ⟨int, frac, exp, hi, hf, he, hcs⟩ := scanInt_sound h
      refine ⟨[] ++ (int ++ (frac ++ exp)),
        ⟨[], int, frac, exp, rfl, Or.inl rfl, hi, hf, he⟩, ?_⟩
      rw [hcs]; simp

theorem scanLit_sound : ∀ (lit cs rest : List Char), scanLit lit cs = .ok rest →
    cs = lit ++ rest := by
  intro lit
  induction lit with
  | nil => intro cs rest h; simp only [scanLit, Except.ok.injEq] at h; rw [h]; rfl
  | cons l ls ih =>
    intro cs rest h
    cases cs with
    | nil => simp [scanLit] at h
    | cons c cs =>
      simp only [scanLit] at h
      split_ifs at h with hc
      rw [hc, ih cs rest h]; rfl

theorem skipSpace_eq_cons {cs cs' : List Char} {c : Char} (h : skipSpace cs = c :: cs') :
    ∃ w, RfcWs w ∧ cs = w ++ c :: cs' := by
  obtain ⟨w, hw, hcs⟩ := skipSpace_decomp cs
  exact ⟨w, hw, by rw [← h]; exact hcs⟩

theorem parseElems_sound (pv : List Char → Scan Json)
    (hpv : ∀ cs v rest, pv cs = .ok (v, rest) → ∃ pre, Rfc .value pre ∧ cs = pre ++ rest) :
    ∀ (m : Nat) (cs : List Char) (vs : List Json) (rest : List Char),
      parseElems pv m cs = .ok (vs, rest) →
      ∃ es, Rfc .elements es ∧ cs = es ++ ']' :: rest := by
  intro m
  induction m with
  | zero => intro cs vs rest h; simp [parseElems] at h
  | succ m ih =>
    intro cs vs rest h
    simp only [parseElems] at h
    obtain ⟨w1, hw1, hcs⟩ := skipSpace_decomp cs
    split at h
    · simp at h
    · rename_i v cs1 hv
      obtain ⟨pre, hpre, hcs1⟩ := hpv _ _ _ hv
      split at h
      · simp at h
      · rename_i c cs2 hc
        obtain ⟨w2, hw2, hcs2⟩ := skipSpace_eq_cons hc
        split_ifs at h with hcomma hclose
        · split at h
          · rename_i vs' rest' hr
            simp only [Except.ok.injEq, Prod.mk.injEq] at h
            obtain ⟨es, hes, hcs3⟩ := ih cs2 vs' rest' hr
            refine ⟨w1 ++ (pre ++ (w2 ++ ',' :: es)), .elementsCons w1 pre w2 es hw1 hpre hw2 hes,
              ?_⟩
            rw [hcs, hcs1, hcs2, hcomma, hcs3, ← h.2]; simp
          · simp at h
        · simp only [Except.ok.injEq, Prod.mk.injEq] at h
          refine ⟨w1 ++ (pre ++ w2), .element w1 pre w2 hw1 hpre hw2, ?_⟩
          rw [hcs, hcs1, hcs2, hclose, ← h.2]; simp

theorem parseMembers_sound (pv : List Char → Scan Json)
    (hpv : ∀ cs v rest, pv cs = .ok (v, rest) → ∃ pre, Rfc .value pre ∧ cs = pre ++ rest) :
    ∀ (m : Nat) (cs : List Char) (ms : List (String × Json)) (rest : List Char),
      parseMembers pv m cs = .ok (ms, rest) →
      ∃ t, Rfc .members t ∧ cs = t ++ '}' :: rest := by
  intro m
  induction m with
  | zero => intro cs ms rest h; simp [parseMembers] at h
  | succ m ih =>
    intro cs ms rest h
    simp only [parseMembers] at h
    split at h
    · simp at h
    · rename_i q cs0 hq
      obtain ⟨w1, hw1, hcs⟩ := skipSpace_eq_cons hq
      split_ifs at h with hquote
      simp only [scanString] at h
      split at h
      · simp at h
      · rename_i key cs1 hk
        obtain ⟨k, hkc, hcs0⟩ := scanStringFrom_sound cs0.length none cs0 key cs1
          (Nat.le_refl _) hk
        split at h
        · simp at h
        · rename_i colon cs2 hcol
          obtain ⟨w2, hw2, hcs1⟩ := skipSpace_eq_cons hcol
          split_ifs at h with hcolon
          obtain ⟨w3, hw3, hcs2⟩ := skipSpace_decomp cs2
          split at h
          · simp at h
          · rename_i v cs3 hv
            obtain ⟨pre, hpre, hcs3⟩ := hpv _ _ _ hv
            split at h
            · simp at h
            · rename_i c cs4 hc
              obtain ⟨w4, hw4, hcs4⟩ := skipSpace_eq_cons hc
              have hq' : q = '"' := by simpa using hquote
              have hcolon' : colon = ':' := by simpa using hcolon
              split_ifs at h with hcomma hclose
              · split at h
                · rename_i ms' rest' hr
                  simp only [Except.ok.injEq, Prod.mk.injEq] at h
                  obtain ⟨t, ht, hcs5⟩ := ih cs4 ms' rest' hr
                  refine ⟨w1 ++ '"' :: (k ++ '"' :: (w2 ++ ':' :: (w3 ++ (pre ++ (w4 ++ ',' :: t))))),
                    .membersCons w1 k w2 w3 pre w4 t hw1 hkc hw2 hw3 hpre hw4 ht, ?_⟩
                  rw [hcs, hq', hcs0, hcs1, hcolon', hcs2, hcs3, hcs4, hcomma, hcs5, ← h.2]
                  simp
                · simp at h
              · simp only [Except.ok.injEq, Prod.mk.injEq] at h
                refine ⟨w1 ++ '"' :: (k ++ '"' :: (w2 ++ ':' :: (w3 ++ (pre ++ w4)))),
                  .member w1 k w2 w3 pre w4 hw1 hkc hw2 hw3 hpre hw4, ?_⟩
                rw [hcs, hq', hcs0, hcs1, hcolon', hcs2, hcs3, hcs4, hclose, ← h.2]
                simp

theorem rfcWs_append {a b : List Char} (ha : RfcWs a) (hb : RfcWs b) : RfcWs (a ++ b) := by
  intro c hc
  rcases List.mem_append.mp hc with h | h
  · exact ha c h
  · exact hb c h

theorem rfc_members_ws {w t : List Char} (hw : RfcWs w) (ht : Rfc .members t) :
    Rfc .members (w ++ t) := by
  cases ht with
  | member w1 k w2 w3 v w4 h1 hk h2 h3 hv h4 =>
    rw [← List.append_assoc]
    exact .member (w ++ w1) k w2 w3 v w4 (rfcWs_append hw h1) hk h2 h3 hv h4
  | membersCons w1 k w2 w3 v w4 ms h1 hk h2 h3 hv h4 hms =>
    rw [← List.append_assoc]
    exact .membersCons (w ++ w1) k w2 w3 v w4 ms (rfcWs_append hw h1) hk h2 h3 hv h4 hms

theorem rfc_elements_ws {w t : List Char} (hw : RfcWs w) (ht : Rfc .elements t) :
    Rfc .elements (w ++ t) := by
  cases ht with
  | element w1 v w2 h1 hv h2 =>
    rw [← List.append_assoc]
    exact .element (w ++ w1) v w2 (rfcWs_append hw h1) hv h2
  | elementsCons w1 v w2 es h1 hv h2 hes =>
    rw [← List.append_assoc]
    exact .elementsCons (w ++ w1) v w2 es (rfcWs_append hw h1) hv h2 hes

theorem parseValue_sound : ∀ (n depth : Nat) (cs : List Char) (v : Json) (rest : List Char),
    parseValue n depth cs = .ok (v, rest) → ∃ pre, Rfc .value pre ∧ cs = pre ++ rest := by
  intro n
  induction n with
  | zero => intro depth cs v rest h; simp [parseValue] at h
  | succ n ih =>
    intro depth cs v rest h
    cases cs with
    | nil => simp [parseValue] at h
    | cons c cs =>
      simp only [parseValue] at h
      split_ifs at h with hobj hdeep harr hdeep' hstr hnum ht hf hn
      · split at h
        · simp at h
        · rename_i d cs1 hd
          obtain ⟨w, hw, hcs⟩ := skipSpace_eq_cons hd
          split_ifs at h with hclose
          · simp only [Except.ok.injEq, Prod.mk.injEq] at h
            refine ⟨'{' :: (w ++ ['}']), .emptyObject w hw, ?_⟩
            rw [hobj, hcs, hclose, ← h.2]; simp
          · split at h
            · rename_i ms rest' hr
              simp only [Except.ok.injEq, Prod.mk.injEq] at h
              obtain ⟨t, ht, hcs1⟩ := parseMembers_sound _ (ih (depth + 1)) n _ _ _ hr
              refine ⟨'{' :: ((w ++ t) ++ ['}']), .object _ (rfc_members_ws hw ht), ?_⟩
              rw [hobj, hcs, hcs1, ← h.2]; simp
            · simp at h
      · split at h
        · simp at h
        · rename_i d cs1 hd
          obtain ⟨w, hw, hcs⟩ := skipSpace_eq_cons hd
          split_ifs at h with hclose
          · simp only [Except.ok.injEq, Prod.mk.injEq] at h
            refine ⟨'[' :: (w ++ [']']), .emptyArray w hw, ?_⟩
            rw [harr, hcs, hclose, ← h.2]; simp
          · split at h
            · rename_i vs rest' hr
              simp only [Except.ok.injEq, Prod.mk.injEq] at h
              obtain ⟨t, ht, hcs1⟩ := parseElems_sound _ (ih (depth + 1)) n _ _ _ hr
              refine ⟨'[' :: ((w ++ t) ++ [']']), .array _ (rfc_elements_ws hw ht), ?_⟩
              rw [harr, hcs, hcs1, ← h.2]; simp
            · simp at h
      · simp only [scanString] at h
        split at h
        · rename_i s rest' hs
          simp only [Except.ok.injEq, Prod.mk.injEq] at h
          obtain ⟨l, hl, hcs⟩ := scanStringFrom_sound cs.length none cs s rest' (Nat.le_refl _) hs
          refine ⟨'"' :: (l ++ ['"']), .string l hl, ?_⟩
          rw [hstr, hcs, ← h.2]; simp
        · simp at h
      · split at h
        · rename_i rest' hs
          simp only [Except.ok.injEq, Prod.mk.injEq] at h
          obtain ⟨pre, hpre, hcs⟩ := scanNumber_sound hs
          exact ⟨pre, .number pre hpre, by rw [hcs, ← h.2]⟩
        · simp at h
      · split at h
        · rename_i rest' hs
          simp only [Except.ok.injEq, Prod.mk.injEq] at h
          refine ⟨['t', 'r', 'u', 'e'], .litTrue, ?_⟩
          rw [ht, scanLit_sound _ _ _ hs, ← h.2]; rfl
        · simp at h
      · split at h
        · rename_i rest' hs
          simp only [Except.ok.injEq, Prod.mk.injEq] at h
          refine ⟨['f', 'a', 'l', 's', 'e'], .litFalse, ?_⟩
          rw [hf, scanLit_sound _ _ _ hs, ← h.2]; rfl
        · simp at h
      · split at h
        · rename_i rest' hs
          simp only [Except.ok.injEq, Prod.mk.injEq] at h
          refine ⟨['n', 'u', 'l', 'l'], .litNull, ?_⟩
          rw [hn, scanLit_sound _ _ _ hs, ← h.2]; rfl
        · simp at h

/-- When the scanner reads a first value from a body, the body starts with a
JSON value of the grammar. -/
theorem startsWithRfcValue_of_parse {body : List Char} {n depth : Nat} {v : Json}
    {rest : List Char} (h : parseValue n depth (skipSpace body) = .ok (v, rest)) :
    StartsWithRfcValue body := by
  obtain ⟨w, hw, hb⟩ := skipSpace_decomp body
  obtain ⟨pre, hpre, hs⟩ := parseValue_sound n depth _ v rest h
  exact ⟨w, pre, rest, hw, hpre, by rw [← hs]; exact hb⟩

theorem decodeFirst_error_of_not_startsWith (body : String)
    (h : ¬ StartsWithRfcValue body.data) :
    ∃ e, decodeFirst body none = .error e ∧ e.errorClass = .DecodeError := by
  unfold decodeFirst
  split
  · rename_i v rest hv
    exact absurd (startsWithRfcValue_of_parse hv) h
  · by_cases hs : body.data.all isSpace = true
    · exact ⟨.ioEOF, by simp [hs], rfl⟩
    · exact ⟨.ioUnexpectedEOF, by simp [hs], rfl⟩
  · exact ⟨_, rfl, rfl⟩

theorem rfcNumber_head {cs : List Char} (h : RfcNumber cs) :
    ∃ c t, cs = c :: t ∧ (c = '-' ∨ RfcDigit c) := by
  obtain ⟨minus, int, frac, exp, rfl, hm, hi, -, -⟩ := h
  rcases hm with rfl | rfl
  · rcases hi with rfl | ⟨⟨hne, hd⟩, -⟩
    · exact ⟨'0', _, rfl, Or.inr (by decide)⟩
    · cases int with
      | nil => exact absurd rfl hne
      | cons c t => exact ⟨c, _, rfl, Or.inr (hd c (by simp))⟩
  · exact ⟨'-', _, rfl, Or.inl rfl⟩

theorem rfc_value_head {v : List Char} (h : Rfc .value v) :
    ∃ c t, v = c :: t ∧
      (c ∈ ['n', 't', 'f', '-', '"', '[', '{'] ∨ RfcDigit c) := by
  cases h with
  | litNull => exact ⟨_, _, rfl, Or.inl (by decide)⟩
  | litTrue => exact ⟨_, _, rfl, Or.inl (by decide)⟩
  | litFalse => exact ⟨_, _, rfl, Or.inl (by decide)⟩
  | number cs hn =>
    obtain ⟨c, t, rfl, hc⟩ := rfcNumber_head hn
    rcases hc with rfl | hc
    · exact ⟨_, _, rfl, Or.inl (by decide)⟩
    · exact ⟨_, _, rfl, Or.inr hc⟩
  | string l _ => exact ⟨_, _, rfl, Or.inl (by decide)⟩
  | emptyArray w _ => exact ⟨_, _, rfl, Or.inl (by decide)⟩
  | array es _ => exact ⟨_, _, rfl, Or.inl (by decide)⟩
  | emptyObject w _ => exact ⟨_, _, rfl, Or.inl (by decide)⟩
  | object ms _ => exact ⟨_, _, rfl, Or.inl (by decide)⟩

theorem rfc_value_brace {t : List Char} (h : Rfc .value ('{' :: t)) :
    ∃ u, t = u ++ ['}'] := by
  generalize hv : '{' :: t = v at h
  cases h with
  | litNull => simp at hv
  | litTrue => simp at hv
  | litFalse => simp at hv
  | number cs hn =>
    obtain ⟨c, t', rfl, hc⟩ := rfcNumber_head hn
    simp only [List.cons.injEq] at hv
    obtain ⟨rfl, -⟩ := hv
    rcases hc with hc | hc
    · exact absurd hc (by decide)
    · exact absurd hc (by decide)
  | string l _ => simp at hv
  | emptyArray w _ => simp at hv
  | array es _ => simp at hv
  | emptyObject w _ =>
    simp only [List.cons.injEq, true_and] at hv
    exact ⟨w, hv⟩
  | object ms _ =>
    simp only [List.cons.injEq, true_and] at hv
    exact ⟨ms, hv⟩

/-- A body whose first character is neither white space nor the first character
of any JSON value does not start with a JSON value. -/
theorem not_startsWith_of_head (c : Char) (t : List Char)
    (hws : ¬ (c.toNat = 0x20 ∨ c.toNat = 0x09 ∨ c.toNat = 0x0A ∨ c.toNat = 0x0D))
    (hc : c ∉ ['n', 't', 'f', '-', '"', '[', '{']) (hd : ¬ RfcDigit c) :
    ¬ StartsWithRfcValue (c :: t) := by
  rintro ⟨w, v, rest, hw, hv, hb⟩
  cases w with
  | cons d w =>
    simp only [List.cons_append, List.cons.injEq] at hb
    exact hws (hb.1 ▸ hw d (by simp))
  | nil =>
    obtain ⟨c', t', rfl, h⟩ := rfc_value_head hv
    simp only [List.nil_append, List.cons_append, List.cons.injEq] at hb
    rcases h with h | h
    · exact hc (hb.1 ▸ h)
    · exact hd (hb.1 ▸ h)

/-- A body that opens an object and holds no closing brace does not start with
a JSON value. -/
theorem not_startsWith_of_open_brace (t : List Char) (h : '}' ∉ t) :
    ¬ StartsWithRfcValue ('{' :: t) := by
  rintro ⟨w, v, rest, hw, hv, hb⟩
  cases w with
  | cons d w =>
    simp only [List.cons_append, List.cons.injEq] at hb
    have := hw d (by simp)
    rw [← hb.1] at this
    exact absurd this (by decide)
  | nil =>
    obtain ⟨c', t', rfl, -⟩ := rfc_value_head hv
    simp only [List.nil_append, List.cons_append, List.cons.injEq] at hb
    obtain ⟨rfl, ht⟩ := hb
    obtain ⟨u, rfl⟩ := rfc_value_brace hv
    exact h (by rw [ht]; simp)

theorem not_rfcText_brace_brace_x : ¬ RfcText ['{', '}', 'x'] := by
  rintro ⟨w1, v, w2, hw1, hv, hw2, hb⟩
  cases w1 with
  | cons d w =>
    simp only [List.cons_append, List.cons.injEq] at hb
    have := hw1 d (by simp)
    rw [← hb.1] at this
    exact absurd this (by decide)
  | nil =>
    obtain ⟨c', t', rfl, -⟩ := rfc_value_head hv
    simp only [List.nil_append, List.cons_append, List.cons.injEq] at hb
    obtain ⟨rfl, ht⟩ := hb
    obtain ⟨u, rfl⟩ := rfc_value_brace hv
    rcases u with _ | ⟨a, _ | ⟨b, u⟩⟩
    · simp only [List.nil_append, List.cons_append, List.cons.injEq, true_and] at ht
      have := hw2 'x' (by rw [← ht]; simp)
      exact absurd this (by decide)
    · simp only [List.cons_append, List.nil_append, List.cons.injEq] at ht
      exact absurd ht.2.1 (by decide)
    · have := congrArg List.length ht
      simp at this

/-- Claim C5 fails on a body with text after its first value: `{}x` is not a JSON
text, for the scanner as for the grammar of RFC 8259, and at status 200 both paths return a zero-valued result and no error. -/
theorem trailing_text_after_first_value_is_accepted :
    isJSONText "\x7b\x7dx" = false ∧
    ¬ RfcText "\x7b\x7dx".data ∧
    sampleClient.Gpt
        (stubServer ⟨200, "\x7b\x7dx", none⟩) "hello"
      = ⟨some { Success := "", Message := "" }, none,
          [postRequest "http://h/gpt" "application/json" [("prompt", "hello")]]⟩ ∧
    sampleClient.Icon
        (stubServer ⟨200, "\x7b\x7dx", none⟩) "hello"
      = ⟨some { Success := "", Image := "" }, none,
          [sampleClient.imageRequest "/icon"
            [("prompt", "hello")]]⟩ := by
  refine ⟨by decide, not_rfcText_brace_brace_x, by decide, by decide⟩

/-- Claim C5 as amended: on each dispatch path, taken alone, when the response
has status 200 and its completely read body does not start, after optional
white space, with a well-formed JSON value of RFC 8259, the call returns no
result and a decode error. -/
theorem malformed_first_value_fails (r : RsnChat) (env : Env) (endpoint : String)
    (payload : Payload) :
    (∀ resp : Response,
      env.newRequestErr (r.APIURL ++ endpoint) = none →
      env.roundTrip (postRequest (r.APIURL ++ endpoint) "application/json" payload)
        = .ok resp →
      resp.statusCode = 200 → resp.readErr = none →
      ¬ StartsWithRfcValue resp.body.data →
      ∃ e : GoError,
        r.sendRequest env endpoint payload
          = ⟨none, some e, [postRequest (r.APIURL ++ endpoint) "application/json" payload]⟩ ∧
        e.errorClass = .DecodeError) ∧
    (∀ resp : Response,
      env.newRequestErr (r.APIURL ++ endpoint) = none →
      env.roundTrip (r.imageRequest endpoint payload) = .ok resp →
      resp.statusCode = 200 → resp.readErr = none →
      ¬ StartsWithRfcValue resp.body.data →
      ∃ e : GoError,
        r.sendImageRequest env endpoint payload
          = ⟨none, some e, [r.imageRequest endpoint payload]⟩ ∧
        e.errorClass = .DecodeError) := by
  constructor
  · intro resp hurl hresp hs hr hb
    obtain ⟨e, he, hc⟩ := decodeFirst_error_of_not_startsWith _ hb
    exact ⟨e, by simp [RsnChat.sendRequest, httpPost, hurl, hresp, hs, decodeTextResult, hr, he],
      hc⟩
  · intro resp hurl hresp hs hr hb
    obtain ⟨e, he, hc⟩ := decodeFirst_error_of_not_startsWith _ hb
    exact ⟨e, by simp [RsnChat.sendImageRequest, hurl, hresp, hs, decodeImage, hr, he], hc⟩

/-- Claim C5 as amended, for `sendRequest` on a stub server whose body is cut off
inside its first value, and for `sendImageRequest` on a server that checks the
Authorization header and answers with an HTML page. -/
theorem malformed_first_value_fails_witness :
    (∃ e : GoError,
      sampleClient.sendRequest (stubServer ⟨200, "\x7b\"success\":\"tr", none⟩) "/gpt"
          [("prompt", "hello")]
        = ⟨none, some e, [postRequest ("http://h" ++ "/gpt") "application/json"
            [("prompt", "hello")]]⟩ ∧
      e.errorClass = .DecodeError) ∧
    (∃ e : GoError,
      sampleClient.sendImageRequest (authServerWith "<html>502 Bad Gateway</html>") "/icon"
          [("prompt", "hello")]
        = ⟨none, some e, [sampleClient.imageRequest "/icon" [("prompt", "hello")]]⟩ ∧
      e.errorClass = .DecodeError) :=
  ⟨(malformed_first_value_fails sampleClient (stubServer ⟨200, "\x7b\"success\":\"tr", none⟩)
      "/gpt" [("prompt", "hello")]).1 ⟨200, "\x7b\"success\":\"tr", none⟩ rfl rfl rfl rfl
      (not_startsWith_of_open_brace _ (by decide)),
   (malformed_first_value_fails sampleClient (authServerWith "<html>502 Bad Gateway</html>")
      "/icon" [("prompt", "hello")]).2 ⟨200, "<html>502 Bad Gateway</html>", none⟩ rfl rfl rfl
      rfl (not_startsWith_of_head _ _ (by decide) (by decide) (by decide))⟩

end RsnChatGo
